import Mathlib

/-!
# Verification of the windreport storm-event pipeline

Shallow embedding of the NOAA wind-storm lookup pipeline (Express server /
serverless handler variants, which share their pipeline code verbatim):
directory-listing resolution, per-row event filtering and normalisation,
date parsing, sorting, radius filtering, deduplication and output shaping.

Modelling conventions:
* JavaScript strings are `List Char` (`Str`); only the ASCII behaviour of
  `toLowerCase`/`toUpperCase`/`trim` is modelled, which covers all data the
  pipeline manipulates (NOAA CSV fields and county names).
* JavaScript numbers are embedded as `ℚ` where the code computes with
  parsed CSV values, and as `ℝ` where the code computes with
  transcendental functions (the haversine distance).  `NaN`/`Infinity`
  results of `Number.parseFloat` are folded into `Option.none`: every
  consumer of a parsed number in the source either checks
  `Number.isFinite` or makes a comparison that is `false` for `NaN`, so
  the non-finite values are observationally equivalent to "absent".
* JavaScript `Date` values are embedded as `ℤ` milliseconds since the Unix
  epoch.  `Date.UTC(y, m, d)` is computed with the standard
  days-from-civil algorithm (proleptic Gregorian calendar, as ECMAScript
  `MakeDay` prescribes), including ECMAScript's mapping of constructor
  years `0..99` to `1900..1999`.
* `try`/`catch` around a per-year fetch is embedded as `Except`.
-/

-- The arithmetic on `ℚ` is `@[irreducible]` upstream; make it
-- semireducible so that concrete pipeline runs can be settled by `decide`.
attribute [local semireducible] Rat.add Rat.mul Rat.sub Rat.inv Rat.ofScientific

/-- JavaScript strings, embedded as lists of characters. -/
abbrev Str := List Char

/-! ## Character utilities (ASCII fragment of the JS string operations) -/

/-- ASCII case of `String.prototype.toLowerCase`. -/
def jsToLowerChar (c : Char) : Char :=
  if 'A' ≤ c ∧ c ≤ 'Z' then Char.ofNat (c.toNat + 32) else c

/-- ASCII case of `String.prototype.toUpperCase`. -/
def jsToUpperChar (c : Char) : Char :=
  if 'a' ≤ c ∧ c ≤ 'z' then Char.ofNat (c.toNat - 32) else c

def jsToLower (s : Str) : Str := s.map jsToLowerChar

def jsToUpper (s : Str) : Str := s.map jsToUpperChar

/-- The ASCII white-space characters matched by the regex class `\s` and
stripped by `String.prototype.trim` (the Unicode space characters are not
modelled; no pipeline input contains them). -/
def isJsSpace (c : Char) : Bool :=
  c = ' ' ∨ c = '\t' ∨ c = '\n' ∨ c = '\x0b' ∨ c = '\x0c' ∨ c = '\r'

/-- `String.prototype.trim` (ASCII fragment). -/
def jsTrim (s : Str) : Str :=
  ((s.dropWhile isJsSpace).reverse.dropWhile isJsSpace).reverse

/-- The regex class `\d`. -/
def isDigitChar (c : Char) : Bool := '0' ≤ c ∧ c ≤ '9'

/-- The regex class `[A-Za-z]` (used via the `/i` flag on `[A-Z]{3}`). -/
def isAsciiLetter (c : Char) : Bool :=
  ('A' ≤ c ∧ c ≤ 'Z') ∨ ('a' ≤ c ∧ c ≤ 'z')

/-- Lower-case letter or digit, i.e. the regex class `[a-z0-9]` used by
`normalizeName`'s `[^a-z0-9\s]` replacement (applied after lowercasing). -/
def isLowerAlnum (c : Char) : Bool :=
  ('a' ≤ c ∧ c ≤ 'z') ∨ ('0' ≤ c ∧ c ≤ '9')

/-- Numeric value of a digit character. -/
def digitVal (c : Char) : ℕ := c.toNat - 48

/-- Digit character for a value `0..9`. -/
def digitChar (n : ℕ) : Char := Char.ofNat (48 + n)

/-- Decimal value of a digit string (used for `Number(match[1])` on the
4-digit year captured by the directory-listing regex). -/
def digitsVal (s : Str) : ℕ := s.foldl (fun a c => 10 * a + digitVal c) 0

/-- Digit-peeling loop of `natToStr`; structural recursion on a fuel
argument so that the kernel can evaluate it. -/
def natToStrAux : ℕ → ℕ → Str
  | 0, _ => []
  | fuel + 1, n =>
    if n < 10 then [digitChar n]
    else natToStrAux fuel (n / 10) ++ [digitChar (n % 10)]

/-- Decimal representation of a natural number, as produced by JS string
interpolation `${n}` for a non-negative integer. -/
def natToStr (n : ℕ) : Str := natToStrAux (n + 1) n

/-- Decimal representation of an integer, as produced by `${i}`. -/
def intToStr (i : ℤ) : Str :=
  if i < 0 then '-' :: natToStr i.natAbs else natToStr i.natAbs

/-- `String(n).padStart(2, "0")` for the month/day fields of `formatDate`. -/
def pad2 (i : ℤ) : Str :=
  let s := intToStr i
  if s.length < 2 then '0' :: s else s

/-! ## Calendar arithmetic (ECMAScript `MakeDay` / `getUTC*`)

`daysFromCivil`/`civilFromDays` are the standard proleptic-Gregorian
conversions between a calendar date and a day count relative to
1970-01-01; they compute exactly what ECMAScript's `MakeDay` and the
`getUTCFullYear`/`getUTCMonth`/`getUTCDate` accessors compute, including
the normalisation of out-of-range day-of-month values. -/

/-- Day count since 1970-01-01 of the civil date `(y, m, d)` with month
`m ∈ [1,12]`; `d` may be out of range (`Date.UTC` normalises it). -/
def daysFromCivil (y m d : ℤ) : ℤ :=
  let y' := if m ≤ 2 then y - 1 else y
  let era := y'.ediv 400
  let yoe := y' - era * 400
  let mp := if m ≤ 2 then m + 9 else m - 3
  let doy := (153 * mp + 2).ediv 5 + d - 1
  let doe := yoe * 365 + yoe.ediv 4 - yoe.ediv 100 + doy
  era * 146097 + doe - 719468

/-- Civil date `(year, month ∈ [1,12], day)` of a day count. -/
def civilFromDays (z : ℤ) : ℤ × ℤ × ℤ :=
  let z' := z + 719468
  let era := z'.ediv 146097
  let doe := z' - era * 146097
  let yoe := (doe - doe.ediv 1460 + doe.ediv 36524 - doe.ediv 146096).ediv 365
  let y := yoe + era * 400
  let doy := doe - (365 * yoe + yoe.ediv 4 - yoe.ediv 100)
  let mp := (5 * doy + 2).ediv 153
  let d := doy - (153 * mp + 2).ediv 5 + 1
  let m := mp + (if mp < 10 then 3 else -9)
  (if m ≤ 2 then y + 1 else y, m, d)

def msPerDay : ℤ := 86400000

/-- ECMAScript maps a constructor year in `0..99` to `1900..1999`. -/
def jsYearMap (y : ℤ) : ℤ := if 0 ≤ y ∧ y ≤ 99 then 1900 + y else y

/-- `Date.UTC(y, m, d)` (midnight, month `m ∈ [0,11]` as in JS), as a
millisecond timestamp. -/
def dateUTC (y m d : ℤ) : ℤ := msPerDay * daysFromCivil (jsYearMap y) (m + 1) d

/-- The `(getUTCFullYear, getUTCMonth+1, getUTCDate)` triple of a
millisecond timestamp. -/
def getUTCYMD (t : ℤ) : ℤ × ℤ × ℤ := civilFromDays (t.ediv msPerDay)

/-- `getUTCFullYear` of a millisecond timestamp. -/
def getUTCFullYear (t : ℤ) : ℤ := (getUTCYMD t).1

/-- line 427 (server.js variant: identical): `formatDate` renders a `Date`
as `MM/DD/YYYY` with 2-padded month and day. -/
def formatDate (t : ℤ) : Str :=
  let ymd := getUTCYMD t
  pad2 ymd.2.1 ++ ['/'] ++ pad2 ymd.2.2 ++ ['/'] ++ intToStr ymd.1

example : formatDate (dateUTC 2020 0 15) = "01/15/2020".data := by decide
example : getUTCFullYear (dateUTC 0 0 0) = 1899 := by decide

/-! ## `Number.parseFloat` (decimal fragment, exact rationals)

The source parses CSV fields with `Number.parseFloat`.  We parse the same
decimal syntax into an exact `ℚ`; `NaN` (no parsable prefix) and
`Infinity` are folded into `none`, which is observationally equivalent in
the pipeline: every consumer either tests `Number.isFinite` or makes a
comparison that is false for `NaN`. -/

/-- Parse the optional exponent suffix `e[+-]?digits` (as in
`parseFloat`'s grammar; an `e` not followed by digits is not consumed). -/
def parseFloatExp (s : Str) : ℤ :=
  match s with
  | 'e' :: t | 'E' :: t =>
    match t with
    | '-' :: d => if (d.takeWhile isDigitChar) = [] then 0 else -(digitsVal (d.takeWhile isDigitChar) : ℤ)
    | '+' :: d => if (d.takeWhile isDigitChar) = [] then 0 else (digitsVal (d.takeWhile isDigitChar) : ℤ)
    | d => if (d.takeWhile isDigitChar) = [] then 0 else (digitsVal (d.takeWhile isDigitChar) : ℤ)
  | _ => 0

/-- `Number.parseFloat`: leading whitespace skipped, optional sign,
decimal digits with optional fraction and exponent; the longest valid
prefix is parsed and trailing garbage ignored. `none` models `NaN` and
`±Infinity`. -/
def parseFloatQ (s0 : Str) : Option ℚ :=
  let s := s0.dropWhile isJsSpace
  let neg : Bool := match s with | '-' :: _ => true | _ => false
  let s1 : Str := match s with | '-' :: r => r | '+' :: r => r | r => r
  if ("Infinity".data).isPrefixOf s1 then none
  else
    let ip := s1.takeWhile isDigitChar
    let r1 := s1.dropWhile isDigitChar
    let fp : Str := match r1 with | '.' :: r => r.takeWhile isDigitChar | _ => []
    let r2 : Str := match r1 with | '.' :: r => r.dropWhile isDigitChar | r => r
    if ip = [] ∧ fp = [] then none
    else
      -- sign * (intpart.fracpart) * 10^exponent, assembled as one exact
      -- rational (numerator/denominator kept in ℤ/ℕ so the kernel can
      -- evaluate it)
      let ex := parseFloatExp r2
      let mantissaNum : ℕ := digitsVal ip * 10 ^ fp.length + digitsVal fp
      let num : ℤ := (if neg then -1 else 1) * ((mantissaNum : ℤ) * 10 ^ ex.toNat)
      let den : ℕ := 10 ^ fp.length * 10 ^ (-ex).toNat
      some (mkRat num den)

example : parseFloatQ "0.3".data = some (mkRat 3 10) := by decide
example : parseFloatQ "100".data = some 100 := by decide
example : parseFloatQ "".data = none := by decide
example : parseFloatQ "-72.9".data = some (mkRat (-729) 10) := by decide

/-- JS `Math.round` on an exact rational: round half toward `+∞`,
i.e. `⌊q + 1/2⌋` (stated via `mkRat` so the kernel can evaluate it;
`Rat.floor` is definitionally `Int.floor` on `ℚ`). -/
def jroundQ (q : ℚ) : ℤ := (q + mkRat 1 2).floor

example : jroundQ (mkRat 3 10) = 0 := by decide
example : jroundQ (mkRat 115078 1000) = 115 := by decide
example : jroundQ (mkRat (-1) 2) = 0 := by decide

/-- `jroundQ` is `⌊· + 1/2⌋`. -/
theorem jroundQ_eq_floor (q : ℚ) : jroundQ q = ⌊q + 1 / 2⌋ := by
  have h : (mkRat 1 2 : ℚ) = 1 / 2 := by norm_num [mkRat, Rat.normalize]
  rw [jroundQ, h]; rfl

/-! ## `parseNoaaDate` -/

/-- Regex fragment `(\d{1,2})sep`: one or two digits (greedy, with
backtracking) followed by the literal separator; returns the numeric
value and the rest of the string. -/
def matchSepNum (sep : Char) (s : Str) : Option (ℕ × Str) :=
  match s with
  | c1 :: c2 :: c3 :: rest =>
    if isDigitChar c1 ∧ isDigitChar c2 ∧ c3 = sep then
      some (10 * digitVal c1 + digitVal c2, rest)
    else if isDigitChar c1 ∧ c2 = sep then some (digitVal c1, c3 :: rest)
    else none
  | [c1, c2] => if isDigitChar c1 ∧ c2 = sep then some (digitVal c1, []) else none
  | _ => none

/-- Regex fragment `(\d{4})`: exactly four digits (anything may follow). -/
def match4Digits (s : Str) : Option ℕ :=
  match s with
  | c1 :: c2 :: c3 :: c4 :: _ =>
    if isDigitChar c1 ∧ isDigitChar c2 ∧ isDigitChar c3 ∧ isDigitChar c4 then
      some (digitsVal [c1, c2, c3, c4])
    else none
  | _ => none

/-- Regex fragment `([A-Z]{3})-` under the `/i` flag: three ASCII
letters followed by a dash. -/
def matchMon (s : Str) : Option (Str × Str) :=
  match s with
  | a :: b :: c :: '-' :: rest =>
    if isAsciiLetter a ∧ isAsciiLetter b ∧ isAsciiLetter c then some ([a, b, c], rest)
    else none
  | _ => none

/-- Regex fragment `(\d{2,4})` at the end of the pattern: two to four
digits, greedy. -/
def matchYear24 (s : Str) : Option ℕ :=
  let ds := (s.take 4).takeWhile isDigitChar
  if 2 ≤ ds.length then some (digitsVal ds) else none

/-- The `months` table of `parseNoaaDate` (JS month index `0..11`). -/
def monthIndex (mon : Str) : Option ℤ :=
  if mon = "JAN".data then some 0 else if mon = "FEB".data then some 1
  else if mon = "MAR".data then some 2 else if mon = "APR".data then some 3
  else if mon = "MAY".data then some 4 else if mon = "JUN".data then some 5
  else if mon = "JUL".data then some 6 else if mon = "AUG".data then some 7
  else if mon = "SEP".data then some 8 else if mon = "OCT".data then some 9
  else if mon = "NOV".data then some 10 else if mon = "DEC".data then some 11
  else none

/-- `parseNoaaDate` (part_002 lines 398-425 / part_001 lines 266-287):
tries `MM/DD/YYYY` then `DD-MON-YY[YY]`, adding 2000 to a two-digit year;
returns a UTC-midnight timestamp or `null`. -/
def parseNoaaDate (value : Str) : Option ℤ :=
  if value = [] then none
  else
    let str := jsTrim value
    match matchSepNum '/' str with
    | some (month, rest1) =>
      (match matchSepNum '/' rest1 with
       | some (day, rest2) =>
         (match match4Digits rest2 with
          | some year => some (dateUTC (year : ℤ) ((month : ℤ) - 1) (day : ℤ))
          | none => parseNoaaDateDash str)
       | none => parseNoaaDateDash str)
    | none => parseNoaaDateDash str
where
  /-- The `DD-MON-YY[YY]` branch. -/
  parseNoaaDateDash (str : Str) : Option ℤ :=
    match matchSepNum '-' str with
    | some (day, rest1) =>
      (match matchMon rest1 with
       | some (monStr, rest2) =>
         (match matchYear24 rest2 with
          | some y =>
            let year : ℤ := if (y : ℤ) < 100 then (y : ℤ) + 2000 else (y : ℤ)
            (match monthIndex (jsToUpper monStr) with
             | some month => some (dateUTC year month (day : ℤ))
             | none => none)
          | none => none)
       | none => none)
    | none => none

example : parseNoaaDate "01/15/2020 00:00:00".data = some (dateUTC 2020 0 15) := by decide
example : parseNoaaDate "15-JAN-99".data = some (dateUTC 2099 0 15) := by decide
example : parseNoaaDate "15-jan-99".data = some (dateUTC 2099 0 15) := by decide
example : parseNoaaDate "".data = none := by decide
example : getUTCFullYear ((parseNoaaDate "00-JAN-00".data).getD 0) = 1999 := by decide

/-! ## `normalizeName` and fuzzy county matching -/

/-- Regex replace `/\s+county$/i` with `""` on an (already lowercased)
string: if the string ends in `county` preceded by at least one
whitespace character, remove that suffix together with the whole
whitespace run before it (the regex `\s+` is greedy and anchored at the
end, so the single replaced match covers the maximal run). -/
def stripCountySuffix (s : Str) : Str :=
  let r := s.reverse
  if ("ytnuoc".data).isPrefixOf r then
    let r1 := r.drop 6
    match r1 with
    | c :: _ => if isJsSpace c then (r1.dropWhile isJsSpace).reverse else s
    | [] => s
  else s

/-- Replace `/\s+/g` by a single space: every maximal run of whitespace
collapses to one `' '`.  Structural recursion with a
previous-char-was-whitespace flag (equivalent to the global regex
replacement). -/
def collapseSpacesAux : Bool → Str → Str
  | _, [] => []
  | prevSpace, c :: rest =>
    if isJsSpace c then
      if prevSpace then collapseSpacesAux true rest
      else ' ' :: collapseSpacesAux true rest
    else c :: collapseSpacesAux false rest

def collapseSpaces (s : Str) : Str := collapseSpacesAux false s

/-- `normalizeName` (part_002 lines 434-442 / part_001 lines 296-304):
lowercase, strip a trailing `county` word, turn every character outside
`[a-z0-9\s]` into a space, collapse whitespace runs, trim. -/
def normalizeName (value : Str) : Str :=
  if value = [] then []
  else
    jsTrim (collapseSpaces
      ((stripCountySuffix (jsToLower value)).map
        (fun c => if isLowerAlnum c ∨ isJsSpace c then c else ' ')))

/-- `normalizeName` applied to a possibly-`null` value (`geo.county`,
`geo.state`): `if (!value) return ""` handles `null`. -/
def normalizeNameOpt (o : Option Str) : Str := normalizeName (o.getD [])

example : normalizeName "Suffolk County".data = "suffolk".data := by decide
example : normalizeName "Suffolk Co".data = "suffolk co".data := by decide
example : normalizeName "St. Louis".data = "st louis".data := by decide
example : normalizeName "  NEW   YORK ".data = "new york".data := by decide

/-- `recordCounty.split(" ")[0]`: the characters before the first space
(`split` on the single-space separator; the first fragment of an empty
string is empty). -/
def firstToken (s : Str) : Str := s.takeWhile (fun c => c ≠ ' ')

/-- Scan for `sub` at every suffix of the subject string. -/
def strIncludesAux (sub : Str) : Str → Bool
  | [] => sub == []
  | c :: rest => sub.isPrefixOf (c :: rest) || strIncludesAux sub rest

/-- `String.prototype.includes`: substring containment. -/
def strIncludes (s sub : Str) : Bool := strIncludesAux sub s

/-- The fuzzy county predicate of `getWindEventsForYear` (part_002 lines
286-291 / part_001 lines 184-188), applied to the two already-normalized
names: equality, containment either way, or equality of the first
space-delimited tokens. -/
def countyMatches (recordCounty normalizedTargetCounty : Str) : Bool :=
  recordCounty == normalizedTargetCounty ||
  strIncludes recordCounty normalizedTargetCounty ||
  strIncludes normalizedTargetCounty recordCounty ||
  firstToken recordCounty == firstToken normalizedTargetCounty

example : countyMatches (normalizeName "Suffolk County".data) (normalizeName "Suffolk".data) = true := by decide
example : countyMatches (normalizeName "Suffolk Co".data) (normalizeName "Suffolk".data) = true := by decide
example : countyMatches (normalizeName "Nassau".data) (normalizeName "Suffolk".data) = false := by decide

/-! ## The per-row filter and normaliser (`getWindEventsForYear` row loop) -/

/-- `WIND_EVENT_TYPES` (part_002 lines 72-81 / part_001 lines 10-19). -/
def WIND_EVENT_TYPES : List Str :=
  ["High Wind".data, "Thunderstorm Wind".data, "Marine Thunderstorm Wind".data,
   "Marine High Wind".data, "Strong Wind".data, "Tropical Storm".data,
   "Hurricane".data, "Hurricane (Typhoon)".data]

/-- One CSV row, keyed by the columns the row loop reads.  A column
missing from the file surfaces in JS as `undefined`; every access in the
source is either guarded by `|| ""` or fed to `Number.parseFloat` (where
`undefined` coerces to `NaN` exactly like `""`), so the empty string
models absence. -/
structure RawRecord where
  EVENT_TYPE : Str := []
  STATE : Str := []
  CZ_NAME : Str := []
  CZ_TYPE : Str := []
  BEGIN_DATE_TIME : Str := []
  BEGIN_DATE : Str := []
  MAGNITUDE : Str := []
  MAGNITUDE_TYPE : Str := []
  BEGIN_LAT : Str := []
  BEGIN_LON : Str := []
deriving DecidableEq

/-- The geocoding result consumed by the pipeline (`geocodeAddress` is an
external collaborator; only the fields the pipeline reads are kept). -/
structure GeoTarget where
  lat : ℚ
  lon : ℚ
  county : Option Str
  state : Option Str

/-- A matched, normalised event as pushed by the row loop.
`distanceMiles` is absent until the radius stage assigns it. -/
structure StormEvent where
  date : ℤ
  windSpeedMph : ℤ
  eventType : Str
  lat : Option ℚ
  lon : Option ℚ
  distanceMiles : Option ℝ := none

/-- JS string `a || b`: an empty string is falsy. -/
def jsOrStr (a b : Str) : Str := if a = [] then b else a

/-- `1.15078` (knots to miles-per-hour).  The source multiplies by the
double `1.15078`, whose exact value differs from this rational by less
than `2⁻⁵²`·; the difference can only affect `Math.round` within
`2⁻⁴⁵` of a half-integer, which no claim input approaches. -/
def KNOTS_TO_MPH : ℚ := mkRat 115078 100000

/-- Wind-speed extraction (part_002 lines 303-316 / part_001 lines
195-200): parse `MAGNITUDE`; if `MAGNITUDE_TYPE` uppercases to `EG` or
`MG` the value is knots and becomes `Math.round(m * 1.15078)` mph;
a non-finite or non-positive result excludes the row (`none`); otherwise
the retained speed is `Math.round` of the (possibly converted) value. -/
def computeWindSpeed (magStr magTypeStr : Str) : Option ℤ :=
  let magnitude0 := parseFloatQ magStr
  let magnitudeType := jsToUpper magTypeStr
  let magnitude : Option ℚ :=
    if magnitudeType = "EG".data ∨ magnitudeType = "MG".data then
      magnitude0.map (fun m => ((jroundQ (m * KNOTS_TO_MPH) : ℤ) : ℚ))
    else magnitude0
  match magnitude with
  | none => none
  | some m => if m ≤ 0 then none else some (jroundQ m)

example : computeWindSpeed "100".data "EG".data = some 115 := by decide
example : computeWindSpeed "100".data "mg".data = some 115 := by decide
example : computeWindSpeed "100".data "".data = some 100 := by decide
example : computeWindSpeed "0.3".data "".data = some 0 := by decide
example : computeWindSpeed "0.3".data "EG".data = none := by decide
example : computeWindSpeed "".data "".data = none := by decide
example : computeWindSpeed "-5".data "".data = none := by decide

/-- The body of the row loop of `getWindEventsForYear` (part_002 lines
259-330 / part_001 lines 172-213): decides inclusion of one CSV row and
builds the pushed event.  Each early `continue` is a `none`. -/
def processRecord (geo : GeoTarget) (cutoff : ℤ) (record : RawRecord) : Option StormEvent :=
  let eventType := jsTrim record.EVENT_TYPE
  if ¬ WIND_EVENT_TYPES.contains eventType then none
  else
    let recordState := normalizeName record.STATE
    let normalizedTargetState := normalizeNameOpt geo.state
    -- `if (normalizedTargetState && recordState !== normalizedTargetState)`
    if normalizedTargetState ≠ [] ∧ recordState ≠ normalizedTargetState then none
    else
      let recordCounty := normalizeName record.CZ_NAME
      let normalizedTargetCounty := normalizeNameOpt geo.county
      -- `if (normalizedTargetCounty) { ... if (!countyMatches) continue }`
      if normalizedTargetCounty ≠ [] ∧ ¬ countyMatches recordCounty normalizedTargetCounty then none
      else
        match parseNoaaDate (jsOrStr record.BEGIN_DATE_TIME record.BEGIN_DATE) with
        | none => none
        | some beginDate =>
          if beginDate < cutoff then none
          else
            match computeWindSpeed record.MAGNITUDE record.MAGNITUDE_TYPE with
            | none => none
            | some speed =>
              some { date := beginDate, windSpeedMph := speed, eventType := eventType,
                     lat := parseFloatQ record.BEGIN_LAT, lon := parseFloatQ record.BEGIN_LON }

/-- The per-year event list produced from the parsed rows of one file
(the acquisition part of `getWindEventsForYear` is covered by
`getLatestStormFilename` and `runYears` below). -/
def eventsOfRecords (geo : GeoTarget) (cutoff : ℤ) (records : List RawRecord) : List StormEvent :=
  records.filterMap (processRecord geo cutoff)

/-! ## Haversine distance (`haversineDistance`, real-valued)

The source computes with IEEE doubles; the embedding computes in `ℝ`
with the same formula.  `Math.atan2` is `jsAtan2` below.  (For latitudes
outside `[-90, 90]` the double code can produce `NaN` where the real
formula is total; all claim inputs use physical coordinates.) -/

noncomputable section

/-- `toRad` (part_002 line 456). -/
def toRad (deg : ℝ) : ℝ := deg * (Real.pi / 180)

/-- `Math.atan2(y, x)` on the reals (the signed-zero distinctions of the
double type do not exist in `ℝ`). -/
def jsAtan2 (y x : ℝ) : ℝ :=
  if 0 < x then Real.arctan (y / x)
  else if x < 0 ∧ 0 ≤ y then Real.arctan (y / x) + Real.pi
  else if x < 0 ∧ y < 0 then Real.arctan (y / x) - Real.pi
  else if x = 0 ∧ 0 < y then Real.pi / 2
  else if x = 0 ∧ y < 0 then -(Real.pi / 2)
  else 0

/-- `haversineDistance` (part_002 lines 445-454 / part_001 lines
306-315): great-circle distance in miles, Earth radius 3958.8. -/
def haversineDistance (lat1 lon1 lat2 lon2 : ℝ) : ℝ :=
  let R : ℝ := 3958.8
  let dLat := toRad (lat2 - lat1)
  let dLon := toRad (lon2 - lon1)
  let a :=
    Real.sin (dLat / 2) * Real.sin (dLat / 2) +
      Real.cos (toRad lat1) * Real.cos (toRad lat2) *
        Real.sin (dLon / 2) * Real.sin (dLon / 2)
  let c := 2 * jsAtan2 (Real.sqrt a) (Real.sqrt (1 - a))
  R * c

end

/-- The distance from coinciding coordinates is exactly 0. -/
theorem haversineDistance_self (lat lon : ℝ) : haversineDistance lat lon lat lon = 0 := by
  simp only [haversineDistance, toRad, jsAtan2, sub_self, zero_mul, zero_div,
    Real.sin_zero, mul_zero, zero_add, add_zero, Real.sqrt_zero, sub_zero,
    Real.sqrt_one]
  simp [Real.arctan_zero]

/-- JS `Math.round` on a real: round half toward `+∞`. -/
noncomputable def jroundR (x : ℝ) : ℤ := ⌊x + 1 / 2⌋

/-! ## The aggregation pipeline (`GET /api/windstorms` handler body) -/

/-- JS truthiness of an optional numeric field (`e.lat`, `e.lon`):
`undefined`/`null` and `0` are falsy. -/
def jsTruthyQ : Option ℚ → Bool
  | none => false
  | some q => q ≠ 0

/-- The haversine distance from the geocoded target to an event's
coordinates (as invoked on line 134 / line 74). -/
noncomputable def eventDistance (geo : GeoTarget) (e : StormEvent) : ℝ :=
  haversineDistance (geo.lat : ℝ) (geo.lon : ℝ)
    ((e.lat.getD 0 : ℚ) : ℝ) ((e.lon.getD 0 : ℚ) : ℝ)

/-- The `.map` of the radius block (part_002 lines 131-137 / part_001
lines 71-77): if both coordinates are truthy, assign
`e.distanceMiles = haversineDistance(...)`; otherwise leave the event
unchanged.  (The coordinates are `some` whenever they are truthy, so the
`getD` defaults are never the value used.) -/
noncomputable def updDist (geo : GeoTarget) (e : StormEvent) : StormEvent :=
  if jsTruthyQ e.lat && jsTruthyQ e.lon then
    { e with distanceMiles := some (eventDistance geo e) }
  else e

/-- The `.filter` of the radius block (part_002 lines 138-142 / part_001
lines 78-81): `if (!e.lat || !e.lon) return false; return
e.distanceMiles <= radiusMiles` (a comparison against a missing
`distanceMiles` is `false`, as `undefined <= r` is in JS). -/
noncomputable def radiusKeep (radiusMiles : ℚ) (e : StormEvent) : Bool :=
  if jsTruthyQ e.lat && jsTruthyQ e.lon then
    match e.distanceMiles with
    | some d => decide (d ≤ (radiusMiles : ℝ))
    | none => false
  else false

/-- The radius block (part_002 lines 129-144 / part_001 lines 69-82):
applied only when `radiusMiles > 0`, otherwise the event list passes
through untouched. -/
noncomputable def radiusFilterStage (geo : GeoTarget) (radiusMiles : ℚ)
    (allEvents : List StormEvent) : List StormEvent :=
  if 0 < radiusMiles then
    (allEvents.map (updDist geo)).filter (radiusKeep radiusMiles)
  else allEvents

/-- `allEvents.sort((a, b) => b.date.getTime() - a.date.getTime())`
(part_002 line 126 / part_001 line 67).  ECMAScript `Array.prototype.sort`
is stable and, for the consistent comparator used here, its result is the
unique stable descending-by-date reordering; `List.insertionSort` with
the corresponding total preorder computes exactly that list. -/
def sortEvents (l : List StormEvent) : List StormEvent :=
  l.insertionSort (fun a b => b.date ≤ a.date)

/-- The dedup key `` `${formatDate(e.date)}-${e.windSpeedMph}` ``
(part_002 line 149 / part_001 line 86). -/
def eventKey (e : StormEvent) : Str :=
  formatDate e.date ++ ['-'] ++ intToStr e.windSpeedMph

/-- The dedup `.filter` with its `seen` set (part_002 lines 146-153 /
part_001 lines 84-90), keeping the first occurrence of each key. -/
def dedupAux (seen : List Str) : List StormEvent → List StormEvent
  | [] => []
  | e :: rest =>
    let key := eventKey e
    if seen.contains key then dedupAux seen rest
    else e :: dedupAux (key :: seen) rest

def dedupEvents (l : List StormEvent) : List StormEvent := dedupAux [] l

/-- One entry of the response `results` array (part_002 lines 155-160 /
part_001 lines 92-97). -/
structure ResultEntry where
  date : Str
  windSpeedMph : ℤ
  eventType : Str
  distanceMiles : Option ℝ

/-- The response shaping map: `distanceMiles: e.distanceMiles ?
Math.round(e.distanceMiles * 10) / 10 : null` — the ternary tests JS
truthiness of the raw distance, so a missing distance *and a distance of
exactly 0* both produce `null`. -/
noncomputable def shapeResult (e : StormEvent) : ResultEntry :=
  { date := formatDate e.date
    windSpeedMph := e.windSpeedMph
    eventType := e.eventType
    distanceMiles :=
      match e.distanceMiles with
      | none => none
      | some d => if d = 0 then none else some ((jroundR (d * 10) : ℝ) / 10) }

/-- The post-accumulation pipeline of the handler (part_002 lines
126-160 / part_001 lines 67-97): sort descending by date, apply the
radius block, deduplicate, shape. -/
noncomputable def postProcess (geo : GeoTarget) (radiusMiles : ℚ)
    (allEvents : List StormEvent) : List ResultEntry :=
  (dedupEvents (radiusFilterStage geo radiusMiles (sortEvents allEvents))).map shapeResult

/-- The full response `results` computation for the rows of one year's
file (years are concatenated by `runYears` below before `postProcess`). -/
noncomputable def finalResults (geo : GeoTarget) (radiusMiles : ℚ) (cutoff : ℤ)
    (records : List RawRecord) : List ResultEntry :=
  postProcess geo radiusMiles (eventsOfRecords geo cutoff records)

/-- The year loop of the handler (part_002 lines 114-123 / part_001
lines 56-65): each year's `getWindEventsForYear` either returns events
(pushed onto the accumulator) or throws (embedded as `Except.error`),
in which case the year is skipped and the loop continues. -/
def runYears (fetch : ℤ → Except Str (List StormEvent)) (years : List ℤ) : List StormEvent :=
  years.foldl
    (fun acc y => match fetch y with
      | .ok events => acc ++ events
      | .error _ => acc) []

/-! ## Dataset directory resolver (`getLatestStormFilename`) -/

/-- The literal pieces of the filename regex
`StormEvents_details-ftp_v1\.0_d(\d{4})_c(\d{8})\.csv\.gz`. -/
def STORM_TOKEN_HEAD : Str := "StormEvents_details-ftp_v1.0_d".data

def STORM_TOKEN_MID : Str := "_c".data

def STORM_TOKEN_TAIL : Str := ".csv.gz".data

/-- Try to match the filename pattern at the head of `s`; on success
return `(full match, 4-digit year capture, 8-digit created capture)`. -/
def matchStormToken (s : Str) : Option (Str × Str × Str) :=
  if STORM_TOKEN_HEAD.isPrefixOf s then
    match s.drop STORM_TOKEN_HEAD.length with
    | y1 :: y2 :: y3 :: y4 :: s2 =>
      if isDigitChar y1 ∧ isDigitChar y2 ∧ isDigitChar y3 ∧ isDigitChar y4 then
        if STORM_TOKEN_MID.isPrefixOf s2 then
          match s2.drop STORM_TOKEN_MID.length with
          | c1 :: c2 :: c3 :: c4 :: c5 :: c6 :: c7 :: c8 :: s4 =>
            if (isDigitChar c1 ∧ isDigitChar c2 ∧ isDigitChar c3 ∧ isDigitChar c4) ∧
               (isDigitChar c5 ∧ isDigitChar c6 ∧ isDigitChar c7 ∧ isDigitChar c8) then
              if STORM_TOKEN_TAIL.isPrefixOf s4 then
                some (STORM_TOKEN_HEAD ++ [y1, y2, y3, y4] ++ STORM_TOKEN_MID ++
                        [c1, c2, c3, c4, c5, c6, c7, c8] ++ STORM_TOKEN_TAIL,
                      [y1, y2, y3, y4], [c1, c2, c3, c4, c5, c6, c7, c8])
              else none
            else none
          | _ => none
        else none
      else none
    | _ => none
  else none

/-- The `regex.exec` loop over the listing text: successive
non-overlapping matches, scanning left to right (`lastIndex` advances
past each match).  Structural recursion on a fuel argument; one
character is consumed per step and one fuel unit spent, so
`fuel = s.length` never runs out. -/
def scanStormTokensAux : ℕ → Str → List (Str × Str × Str)
  | 0, _ => []
  | fuel + 1, s =>
    match s with
    | [] => []
    | c :: rest =>
      match matchStormToken (c :: rest) with
      | some (full, y, cr) =>
        (full, y, cr) :: scanStormTokensAux fuel (rest.drop (full.length - 1))
      | none => scanStormTokensAux fuel rest

/-- All filename tokens in a directory-listing text, with their year and
creation-date captures. -/
def scanStormTokens (s : Str) : List (Str × Str × Str) :=
  scanStormTokensAux s.length s

/-- Lexicographic (code-unit) comparison of strings; on the fixed-width
digit captures compared by the source this is exactly what
`String.prototype.localeCompare` computes (`lexLe a b` iff
`a.localeCompare(b) <= 0`). -/
def lexLe : Str → Str → Bool
  | [], _ => true
  | _ :: _, [] => false
  | a :: as, b :: bs => if a < b then true else if b < a then false else lexLe as bs

/-- `getLatestStormFilename` (part_002 lines 358-376 / part_001 lines
233-248), with the listing text passed explicitly (the HTTP fetch and its
one-hour cache are external I/O): collect the pattern matches whose
4-digit year equals the requested year, return `null` if there are none,
otherwise sort by the `created` capture descending (string comparison)
and return the first filename. -/
def getLatestStormFilename (html : Str) (year : ℤ) : Option Str :=
  let ms := (scanStormTokens html).filter (fun m => ((digitsVal m.2.1 : ℤ) == year))
  match ms.insertionSort (fun a b => lexLe b.2.2 a.2.2) with
  | [] => none
  | m :: _ => some m.1

set_option maxRecDepth 40000 in
example :
    getLatestStormFilename
      ("x StormEvents_details-ftp_v1.0_d2020_c20230101.csv.gz " ++
       "StormEvents_details-ftp_v1.0_d2020_c20240102.csv.gz " ++
       "StormEvents_details-ftp_v1.0_d2019_c20250101.csv.gz").data 2020 =
      some "StormEvents_details-ftp_v1.0_d2020_c20240102.csv.gz".data := by decide

example : getLatestStormFilename "nothing here".data 2020 = none := by decide

/-! ## Shared helper lemmas -/

/-- Unfolding of the year-loop fold: the accumulator distributes. -/
theorem runYears_foldl (fetch : ℤ → Except Str (List StormEvent)) :
    ∀ (years : List ℤ) (acc : List StormEvent),
      years.foldl
        (fun acc y => match fetch y with
          | .ok events => acc ++ events
          | .error _ => acc) acc =
      acc ++ (years.map (fun y => ((fetch y).toOption.getD []))).flatten := by
  intro years
  induction years with
  | nil => intro acc; simp
  | cons y ys ih =>
    intro acc
    cases h : fetch y with
    | ok events => simp [List.foldl_cons, h, ih, Except.toOption]
    | error e => simp [List.foldl_cons, h, ih, Except.toOption]

/-- The year loop produces exactly the concatenation of the successful
years' event lists. -/
theorem runYears_eq_flatten (fetch : ℤ → Except Str (List StormEvent)) (years : List ℤ) :
    runYears fetch years = (years.map (fun y => ((fetch y).toOption.getD []))).flatten := by
  simpa [runYears] using runYears_foldl fetch years []

/-- C8: If processing of any single year fails at any stage
(directory-listing fetch failure, file download failure, or malformed
stream — all embedded as `Except.error`), that error is caught and the
year contributes zero events, while every other year in the window
contributes exactly its own events and the overall accumulation is still
produced: the year loop computes the concatenation of the successful
years' event lists, and replacing every failing year by an empty success
does not change the result. -/
theorem runYears_error_isolation :
    ∀ (fetch : ℤ → Except Str (List StormEvent)) (years : List ℤ),
      runYears fetch years = (years.map (fun y => ((fetch y).toOption.getD []))).flatten ∧
      runYears fetch years =
        runYears (fun y => .ok ((fetch y).toOption.getD [])) years := by
  intro fetch years
  refine ⟨runYears_eq_flatten fetch years, ?_⟩
  rw [runYears_eq_flatten, runYears_eq_flatten]
  simp [Except.toOption]

/-- Rounding an integer (cast to `ℚ`) returns it unchanged. -/
theorem jroundQ_intCast (c : ℤ) : jroundQ ((c : ℤ) : ℚ) = c := by
  rw [jroundQ_eq_floor, Int.floor_int_add]
  norm_num

/-- C4: a row whose magnitude-type flag uppercases to one of the two
gust values `EG`/`MG` has its parsed magnitude `m` converted as
`Math.round(m * 1.15078)` (knots to mph); any other row keeps `m` as mph
and rounds it directly; a magnitude that is non-finite (unparsable,
`none`) or `≤ 0` after conversion excludes the row.  In particular
magnitude `100` with a gust flag yields `115` and without it `100`. -/
theorem computeWindSpeed_conversion :
    (∀ (magStr magTypeStr : Str),
        computeWindSpeed magStr magTypeStr =
          match parseFloatQ magStr with
          | none => none
          | some m =>
            if jsToUpper magTypeStr = "EG".data ∨ jsToUpper magTypeStr = "MG".data then
              (if jroundQ (m * KNOTS_TO_MPH) ≤ 0 then none
               else some (jroundQ (m * KNOTS_TO_MPH)))
            else (if m ≤ 0 then none else some (jroundQ m))) ∧
    computeWindSpeed "100".data "EG".data = some 115 ∧
    computeWindSpeed "100".data "MG".data = some 115 ∧
    computeWindSpeed "100".data "".data = some 100 ∧
    (∀ magTypeStr, computeWindSpeed "".data magTypeStr = none) := by
  refine ⟨?_, by decide, by decide, by decide, ?_⟩
  · intro magStr magTypeStr
    unfold computeWindSpeed
    cases hp : parseFloatQ magStr with
    | none =>
      by_cases hg : jsToUpper magTypeStr = "EG".data ∨ jsToUpper magTypeStr = "MG".data <;>
        simp [hg]
    | some m =>
      by_cases hg : jsToUpper magTypeStr = "EG".data ∨ jsToUpper magTypeStr = "MG".data
      · simp only [hg, if_true, Option.map_some]
        have hle : (((jroundQ (m * KNOTS_TO_MPH) : ℤ) : ℚ) ≤ 0) ↔
            jroundQ (m * KNOTS_TO_MPH) ≤ 0 := by
          exact_mod_cast Iff.rfl
        by_cases h0 : jroundQ (m * KNOTS_TO_MPH) ≤ 0
        · simp [hle.mpr h0, h0]
        · simp [h0, hle, jroundQ_intCast]
      · simp [hg]
  · intro magTypeStr
    unfold computeWindSpeed
    rw [show parseFloatQ "".data = none from by decide]
    by_cases hg : jsToUpper magTypeStr = "EG".data ∨ jsToUpper magTypeStr = "MG".data <;>
      simp [hg]

/-- `strIncludes` decides substring containment. -/
theorem strIncludes_iff (s sub : Str) : strIncludes s sub = true ↔ sub <:+: s := by
  rw [strIncludes]
  induction s with
  | nil => simp [strIncludesAux, List.infix_nil]
  | cons c rest ih =>
    rw [strIncludesAux, Bool.or_eq_true, List.isPrefixOf_iff_prefix, ih,
      List.infix_cons_iff]

/-- C5: for a record county name and a target county name, the fuzzy
county match succeeds exactly when, after `normalizeName` of both, the
two normalized strings are equal, or either contains the other as a
substring, or their first space-delimited tokens are equal; in
particular target `Suffolk` matches records `Suffolk County` and
`Suffolk Co`. -/
theorem countyMatches_fuzzy_spec :
    (∀ recName tgtName : Str,
      countyMatches (normalizeName recName) (normalizeName tgtName) = true ↔
        (normalizeName recName = normalizeName tgtName ∨
         normalizeName tgtName <:+: normalizeName recName ∨
         normalizeName recName <:+: normalizeName tgtName ∨
         firstToken (normalizeName recName) = firstToken (normalizeName tgtName))) ∧
    countyMatches (normalizeName "Suffolk County".data) (normalizeName "Suffolk".data) = true ∧
    countyMatches (normalizeName "Suffolk Co".data) (normalizeName "Suffolk".data) = true := by
  refine ⟨?_, by decide, by decide⟩
  intro recName tgtName
  rw [countyMatches]
  simp only [Bool.or_eq_true, beq_iff_eq, strIncludes_iff]
  tauto

/-! ## Sorting: descending by date, stable, order-preserving stages -/

instance : IsTotal StormEvent (fun a b => b.date ≤ a.date) :=
  ⟨fun a b => le_total b.date a.date⟩

instance : IsTrans StormEvent (fun a b => b.date ≤ a.date) :=
  ⟨fun _ _ _ h1 h2 => le_trans h2 h1⟩

/-- `updDist` only assigns `distanceMiles`; every other field is kept. -/
theorem updDist_fields (geo : GeoTarget) (e : StormEvent) :
    (updDist geo e).date = e.date ∧ (updDist geo e).windSpeedMph = e.windSpeedMph ∧
    (updDist geo e).eventType = e.eventType ∧ (updDist geo e).lat = e.lat ∧
    (updDist geo e).lon = e.lon := by
  rw [updDist]; split <;> exact ⟨rfl, rfl, rfl, rfl, rfl⟩

/-- The dedup pass keeps a subsequence of its input. -/
theorem dedupAux_sublist :
    ∀ (l : List StormEvent) (seen : List Str), List.Sublist (dedupAux seen l) l := by
  intro l
  induction l with
  | nil => intro seen; simp [dedupAux]
  | cons e rest ih =>
    intro seen
    rw [dedupAux]
    by_cases h : seen.contains (eventKey e)
    · simp only [h, if_true]
      exact (ih seen).trans (List.sublist_cons_self e rest)
    · simp only [h, if_false]
      exact List.Sublist.cons₂ e (ih (eventKey e :: seen))

theorem dedupEvents_sublist (l : List StormEvent) : List.Sublist (dedupEvents l) l :=
  dedupAux_sublist l []

/-- Inserting into the sorted remainder commutes with filtering the
events of one fixed date: the inserted element goes in front of the kept
ones exactly when it has that date. -/
theorem filter_orderedInsert_date (t : ℤ) (x : StormEvent) :
    ∀ l : List StormEvent,
      (List.orderedInsert (fun a b => b.date ≤ a.date) x l).filter
          (fun e => e.date == t) =
        if x.date == t then x :: l.filter (fun e => e.date == t)
        else l.filter (fun e => e.date == t) := by
  intro l
  induction l with
  | nil =>
    by_cases hx : x.date = t <;>
      simp [List.orderedInsert, List.filter_cons, hx]
  | cons b bs ih =>
    rw [List.orderedInsert]
    by_cases hr : b.date ≤ x.date
    · rw [if_pos hr]
      by_cases hx : x.date = t <;>
        simp [List.filter_cons, hx]
    · rw [if_neg hr]
      by_cases hx : x.date = t
      · have hb : ¬ b.date = t := fun hb => hr (by rw [hb, hx])
        simp [List.filter_cons, hb, ih, hx]
      · simp only [List.filter_cons, ih, hx]
        by_cases hb : b.date = t <;> simp [hb, hx]

/-- The sort is stable on each date class: filtering the sorted list to
one date yields the original order of that date's events. -/
theorem sortEvents_stable (t : ℤ) :
    ∀ l : List StormEvent,
      (sortEvents l).filter (fun e => e.date == t) = l.filter (fun e => e.date == t) := by
  intro l
  induction l with
  | nil => rfl
  | cons x xs ih =>
    rw [sortEvents, List.insertionSort, ← sortEvents, filter_orderedInsert_date, ih]
    by_cases hx : x.date = t <;> simp [List.filter_cons, hx]

/-- The sorted list is descending by date. -/
theorem sortEvents_pairwise (l : List StormEvent) :
    (sortEvents l).Pairwise (fun a b => b.date ≤ a.date) :=
  List.sorted_insertionSort _ l

/-- Each radius-stage output is descending by date whenever its input
is. -/
theorem radiusFilterStage_pairwise (geo : GeoTarget) (radiusMiles : ℚ)
    (l : List StormEvent) (h : l.Pairwise (fun a b => b.date ≤ a.date)) :
    (radiusFilterStage geo radiusMiles l).Pairwise (fun a b => b.date ≤ a.date) := by
  rw [radiusFilterStage]
  split
  · refine List.Pairwise.sublist (List.filter_sublist _) ?_
    refine List.Pairwise.map _ ?_ h
    intro a b hab
    rw [(updDist_fields geo a).1, (updDist_fields geo b).1]
    exact hab
  · exact h

/-- C7: the post-sort pipeline output is ordered by descending begin
date: the sorted accumulation is pairwise descending (so every adjacent
pair `(a, b)` satisfies `b.date ≤ a.date`), events of equal begin date
keep their stable relative order from the accumulation sequence, and the
radius filter and deduplication stages — which run after the sort —
preserve the descending order through to the deduplicated list that is
shaped into the response. -/
theorem results_sorted_descending :
    ∀ (geo : GeoTarget) (radiusMiles : ℚ) (l : List StormEvent),
      (sortEvents l).Chain' (fun a b => b.date ≤ a.date) ∧
      (∀ t : ℤ, (sortEvents l).filter (fun e => e.date == t) =
        l.filter (fun e => e.date == t)) ∧
      (dedupEvents (radiusFilterStage geo radiusMiles (sortEvents l))).Chain'
        (fun a b => b.date ≤ a.date) := by
  intro geo radiusMiles l
  refine ⟨(sortEvents_pairwise l).chain', fun t => sortEvents_stable t l, ?_⟩
  refine List.Pairwise.chain' ?_
  refine List.Pairwise.sublist (dedupEvents_sublist _) ?_
  exact radiusFilterStage_pairwise geo radiusMiles _ (sortEvents_pairwise l)

/-! ## Resolver: latest-created filename for a year -/

theorem lexLe_refl : ∀ s : Str, lexLe s s = true := by
  intro s
  induction s with
  | nil => rfl
  | cons a as ih => simp [lexLe, lt_irrefl, ih]

theorem lexLe_total : ∀ s t : Str, lexLe s t = true ∨ lexLe t s = true := by
  intro s
  induction s with
  | nil => intro t; left; rfl
  | cons a as ih =>
    intro t
    cases t with
    | nil => right; rfl
    | cons b bs =>
      rcases lt_trichotomy a b with h | h | h
      · left; simp [lexLe, h]
      · subst h
        rcases ih bs with h' | h'
        · left; simp [lexLe, lt_irrefl, h']
        · right; simp [lexLe, lt_irrefl, h']
      · right; simp [lexLe, h]

theorem lexLe_trans :
    ∀ s t u : Str, lexLe s t = true → lexLe t u = true → lexLe s u = true := by
  intro s
  induction s with
  | nil => intro t u _ _; rfl
  | cons a as ih =>
    intro t u h1 h2
    cases t with
    | nil => simp [lexLe] at h1
    | cons b bs =>
      cases u with
      | nil => simp [lexLe] at h2
      | cons c cs =>
        rw [lexLe] at h1 h2 ⊢
        by_cases hab : a < b
        · by_cases hbc : b < c
          · simp [lt_trans hab hbc]
          · by_cases hcb : c < b
            · simp [hbc, hcb] at h2
            · have : b = c := le_antisymm (not_lt.mp hcb) (not_lt.mp hbc)
              subst this
              simp [hab]
        · by_cases hba : b < a
          · simp [hab, hba] at h1
          · have : a = b := le_antisymm (not_lt.mp hba) (not_lt.mp hab)
            subst this
            simp only [lt_irrefl, if_false] at h1
            by_cases hbc : a < c
            · simp [hbc]
            · by_cases hcb : c < a
              · simp [hbc, hcb] at h2
              · have : a = c := le_antisymm (not_lt.mp hcb) (not_lt.mp hbc)
                subst this
                simp only [lt_irrefl, if_false] at h2 ⊢
                exact ih bs cs h1 h2

instance : IsTotal (Str × Str × Str) (fun a b => lexLe b.2.2 a.2.2 = true) :=
  ⟨fun a b => (lexLe_total b.2.2 a.2.2)⟩

instance : IsTrans (Str × Str × Str) (fun a b => lexLe b.2.2 a.2.2 = true) :=
  ⟨fun _ _ _ h1 h2 => lexLe_trans _ _ _ h2 h1⟩

/-- C9: for every requested year and directory-listing text, the
resolver returns absence exactly when no token of the fixed filename
pattern has that embedded year; and when it returns a filename, that
filename is one of the matching tokens for the year and its 8-digit
creation suffix is lexicographically greatest among all of them. -/
theorem getLatestStormFilename_spec :
    ∀ (html : Str) (year : ℤ),
      (getLatestStormFilename html year = none ↔
        (scanStormTokens html).filter
          (fun m => ((digitsVal m.2.1 : ℤ) == year)) = []) ∧
      (∀ f, getLatestStormFilename html year = some f →
        ∃ m, m ∈ (scanStormTokens html).filter
              (fun m => ((digitsVal m.2.1 : ℤ) == year)) ∧
          f = m.1 ∧ (digitsVal m.2.1 : ℤ) = year ∧
          ∀ m', m' ∈ (scanStormTokens html).filter
                  (fun m => ((digitsVal m.2.1 : ℤ) == year)) →
            lexLe m'.2.2 m.2.2 = true) := by
  intro html year
  rw [getLatestStormFilename]
  set ms := (scanStormTokens html).filter
    (fun m => ((digitsVal m.2.1 : ℤ) == year)) with hms
  have hperm : List.Perm (ms.insertionSort (fun a b => lexLe b.2.2 a.2.2 = true)) ms :=
    List.perm_insertionSort _ ms
  constructor
  · cases hsort : ms.insertionSort (fun a b => lexLe b.2.2 a.2.2 = true) with
    | nil =>
      simp only [hsort]
      rw [hsort] at hperm
      have hnil : ms = [] := hperm.symm.eq_nil
      simp [hnil]
    | cons m rest =>
      simp only [hsort]
      rw [hsort] at hperm
      constructor
      · intro h; exact absurd h (by simp)
      · intro h; rw [h] at hperm; exact absurd hperm.eq_nil (by simp)
  · intro f hf
    cases hsort : ms.insertionSort (fun a b => lexLe b.2.2 a.2.2 = true) with
    | nil => rw [hsort] at hf; simp at hf
    | cons m rest =>
      rw [hsort] at hf hperm
      have hfm : f = m.1 := by simpa using hf.symm
      have hmem : m ∈ ms := hperm.mem_iff.mp (List.mem_cons_self m rest)
      have hyear : (digitsVal m.2.1 : ℤ) = year := by
        have := List.of_mem_filter hmem
        simpa using this
      refine ⟨m, hmem, hfm, hyear, ?_⟩
      intro m' hm'
      have hsorted : (m :: rest).Pairwise (fun a b => lexLe b.2.2 a.2.2 = true) := by
        rw [← hsort]
        exact List.sorted_insertionSort _ ms
      rcases List.mem_cons.mp (hperm.mem_iff.mpr hm' : m' ∈ m :: rest) with h | h
      · rw [h]; exact lexLe_refl m.2.2
      · exact (List.pairwise_cons.mp hsorted).1 m' h

/-- A small directory listing used to witness the resolver theorems. -/
def sampleListing : Str :=
  ("x StormEvents_details-ftp_v1.0_d2020_c20230101.csv.gz " ++
   "StormEvents_details-ftp_v1.0_d2020_c20240102.csv.gz " ++
   "StormEvents_details-ftp_v1.0_d2019_c20250101.csv.gz").data

set_option maxRecDepth 40000 in
/-- Witness for `getLatestStormFilename_spec` on a concrete listing. -/
theorem getLatestStormFilename_spec_witness :
    ∃ m, m ∈ (scanStormTokens sampleListing).filter
          (fun m => ((digitsVal m.2.1 : ℤ) == 2020)) ∧
      "StormEvents_details-ftp_v1.0_d2020_c20240102.csv.gz".data = m.1 ∧
      (digitsVal m.2.1 : ℤ) = 2020 ∧
      ∀ m', m' ∈ (scanStormTokens sampleListing).filter
              (fun m => ((digitsVal m.2.1 : ℤ) == 2020)) →
        lexLe m'.2.2 m.2.2 = true :=
  (getLatestStormFilename_spec sampleListing 2020).2
    "StormEvents_details-ftp_v1.0_d2020_c20240102.csv.gz".data (by decide)

/-! ## Deduplication by the (formatted date, wind speed) key -/

theorem isDigitChar_digitChar {n : ℕ} (h : n < 10) : isDigitChar (digitChar n) = true := by
  interval_cases n <;> decide

theorem digitVal_digitChar {n : ℕ} (h : n < 10) : digitVal (digitChar n) = n := by
  interval_cases n <;> decide

theorem digitChar_inj {m n : ℕ} (hm : m < 10) (hn : n < 10)
    (h : digitChar m = digitChar n) : m = n := by
  interval_cases m <;> interval_cases n <;> first | rfl | exact absurd h (by decide)

theorem natToStrAux_ne_nil : ∀ (fuel n : ℕ), n < fuel → natToStrAux fuel n ≠ [] := by
  intro fuel
  cases fuel with
  | zero => intro n h; omega
  | succ f =>
    intro n _
    rw [natToStrAux]
    split
    · simp
    · simp

theorem natToStrAux_digits :
    ∀ (fuel n : ℕ), n < fuel → ∀ c ∈ natToStrAux fuel n, isDigitChar c = true := by
  intro fuel
  induction fuel with
  | zero => intro n h; omega
  | succ f ih =>
    intro n hn c hc
    rw [natToStrAux] at hc
    by_cases h10 : n < 10
    · rw [if_pos h10] at hc
      rcases List.mem_singleton.mp hc with rfl
      exact isDigitChar_digitChar h10
    · rw [if_neg h10] at hc
      rcases List.mem_append.mp hc with h | h
      · exact ih (n / 10) (by omega) c h
      · rcases List.mem_singleton.mp h with rfl
        exact isDigitChar_digitChar (by omega)

theorem natToStrAux_inj :
    ∀ (fuel1 : ℕ), ∀ (fuel2 m n : ℕ), m < fuel1 → n < fuel2 →
      natToStrAux fuel1 m = natToStrAux fuel2 n → m = n := by
  intro fuel1
  induction fuel1 with
  | zero => intro fuel2 m n h; omega
  | succ f1 ih =>
    intro fuel2 m n hm hn h
    cases fuel2 with
    | zero => omega
    | succ f2 =>
      rw [natToStrAux, natToStrAux] at h
      by_cases hm10 : m < 10
      · rw [if_pos hm10] at h
        by_cases hn10 : n < 10
        · rw [if_pos hn10] at h
          exact digitChar_inj hm10 hn10 (by injection h)
        · rw [if_neg hn10] at h
          have hlen := congrArg List.length h
          rw [List.length_singleton, List.length_append, List.length_singleton] at hlen
          have h0 : (natToStrAux f2 (n / 10)).length = 0 := by omega
          exact absurd (List.length_eq_zero.mp h0)
            (natToStrAux_ne_nil f2 (n / 10) (by omega))
      · rw [if_neg hm10] at h
        by_cases hn10 : n < 10
        · rw [if_pos hn10] at h
          have hlen := congrArg List.length h
          rw [List.length_append, List.length_singleton, List.length_singleton] at hlen
          have h0 : (natToStrAux f1 (m / 10)).length = 0 := by omega
          exact absurd (List.length_eq_zero.mp h0)
            (natToStrAux_ne_nil f1 (m / 10) (by omega))
        · rw [if_neg hn10] at h
          have hsplit := List.append_inj' h (by simp)
          have h1 : m / 10 = n / 10 :=
            ih f2 (m / 10) (n / 10) (by omega) (by omega) hsplit.1
          have h2 : m % 10 = n % 10 :=
            digitChar_inj (by omega) (by omega) (by simpa using hsplit.2)
          omega

theorem natToStr_inj {m n : ℕ} (h : natToStr m = natToStr n) : m = n :=
  natToStrAux_inj (m + 1) (n + 1) m n (by omega) (by omega) h

theorem natToStr_digits {n : ℕ} : ∀ c ∈ natToStr n, isDigitChar c = true :=
  natToStrAux_digits (n + 1) n (by omega)

/-- A digit character is never the dash separator. -/
theorem isDigitChar_ne_dash {c : Char} (h : isDigitChar c = true) : c ≠ '-' := by
  intro hc; rw [hc] at h; exact absurd h (by decide)

theorem intToStr_nonneg {i : ℤ} (h : 0 ≤ i) : intToStr i = natToStr i.natAbs := by
  rw [intToStr, if_neg (by omega)]

theorem intToStr_inj_nonneg {i j : ℤ} (hi : 0 ≤ i) (hj : 0 ≤ j)
    (h : intToStr i = intToStr j) : i = j := by
  rw [intToStr_nonneg hi, intToStr_nonneg hj] at h
  have := natToStr_inj h
  omega

/-- Splitting at a separator character that occurs in neither prefix is
unambiguous. -/
theorem append_sep_inj {c : Char} :
    ∀ (a a' b b' : Str), c ∉ a → c ∉ a' → a ++ c :: b = a' ++ c :: b' →
      a = a' ∧ b = b' := by
  intro a
  induction a with
  | nil =>
    intro a' b b' _ ha' h
    cases a' with
    | nil => simp_all
    | cons y ys =>
      simp only [List.nil_append, List.cons_append, List.cons.injEq] at h
      exact absurd (h.1 ▸ List.mem_cons_self y ys) ha'
  | cons x xs ih =>
    intro a' b b' ha ha' h
    cases a' with
    | nil =>
      simp only [List.cons_append, List.nil_append, List.cons.injEq] at h
      exact absurd (h.1 ▸ List.mem_cons_self x xs) ha
    | cons y ys =>
      simp only [List.cons_append, List.cons.injEq] at h
      obtain ⟨rfl, h2⟩ := h
      obtain ⟨h3, h4⟩ := ih ys b b' (fun hm => ha (List.mem_cons_of_mem _ hm))
        (fun hm => ha' (List.mem_cons_of_mem _ hm)) h2
      exact ⟨by rw [h3], h4⟩

/-- On events whose formatted date contains no dash and whose wind speed
is non-negative (every event the pipeline builds from NOAA data is of
this shape), equality of dedup keys is equality of the (formatted date,
wind speed) pair. -/
theorem eventKey_eq_iff {e1 e2 : StormEvent}
    (hd1 : '-' ∉ formatDate e1.date) (hd2 : '-' ∉ formatDate e2.date)
    (hs1 : 0 ≤ e1.windSpeedMph) (hs2 : 0 ≤ e2.windSpeedMph) :
    eventKey e1 = eventKey e2 ↔
      (formatDate e1.date = formatDate e2.date ∧ e1.windSpeedMph = e2.windSpeedMph) := by
  constructor
  · intro h
    rw [eventKey, eventKey] at h
    rw [List.append_assoc, List.append_assoc, List.singleton_append,
      List.singleton_append] at h
    obtain ⟨h1, h2⟩ := append_sep_inj _ _ _ _ hd1 hd2 h
    exact ⟨h1, intToStr_inj_nonneg hs1 hs2 h2⟩
  · intro ⟨h1, h2⟩
    rw [eventKey, eventKey, h1, h2]

/-- First-occurrence deduplication by the string key (reference form of
the `seen`-set filter). -/
def dedupKeySpec : List StormEvent → List StormEvent
  | [] => []
  | e :: rest =>
    e :: dedupKeySpec (rest.filter (fun x => eventKey x != eventKey e))
  termination_by l => l.length
  decreasing_by
    simp only [List.length_cons]
    exact Nat.lt_succ_of_le (List.length_filter_le _ _)

/-- The spec's description of the dedup step: collapse the events by the
(formatted `MM/DD/YYYY` date, rounded wind speed) pair, keeping the
first occurrence of each pair in the current order. -/
def dedupByPairSpec : List StormEvent → List StormEvent
  | [] => []
  | e :: rest =>
    e :: dedupByPairSpec (rest.filter
      (fun x => !(formatDate x.date == formatDate e.date &&
                  x.windSpeedMph == e.windSpeedMph)))
  termination_by l => l.length
  decreasing_by
    simp only [List.length_cons]
    exact Nat.lt_succ_of_le (List.length_filter_le _ _)

theorem dedupKeySpec_cons (e : StormEvent) (rest : List StormEvent) :
    dedupKeySpec (e :: rest) =
      e :: dedupKeySpec (rest.filter (fun x => eventKey x != eventKey e)) := by
  rw [dedupKeySpec]

theorem dedupByPairSpec_cons (e : StormEvent) (rest : List StormEvent) :
    dedupByPairSpec (e :: rest) =
      e :: dedupByPairSpec (rest.filter
        (fun x => !(formatDate x.date == formatDate e.date &&
                    x.windSpeedMph == e.windSpeedMph))) := by
  rw [dedupByPairSpec]

set_option maxHeartbeats 1600000 in
/-- The `seen`-set filter computes first-occurrence deduplication of the
not-yet-seen events. -/
theorem dedupAux_eq :
    ∀ (l : List StormEvent) (seen : List Str),
      dedupAux seen l =
        dedupKeySpec (l.filter (fun e => !(seen.contains (eventKey e)))) := by
  intro l
  induction l with
  | nil => intro seen; simp [dedupAux, dedupKeySpec]
  | cons e rest ih =>
    intro seen
    rw [dedupAux, List.filter_cons]
    by_cases h : seen.contains (eventKey e) = true
    · rw [if_pos h, if_neg (show ¬((!seen.contains (eventKey e)) = true) by rw [h]; simp)]
      exact ih seen
    · rw [if_neg h, if_pos (show (!seen.contains (eventKey e)) = true by simpa using h)]
      rw [ih (eventKey e :: seen), dedupKeySpec_cons]
      congr 1
      rw [List.filter_filter]
      apply congrArg
      apply List.filter_congr
      intro x _
      rw [List.contains_cons]
      cases hxe : (eventKey x == eventKey e) <;>
        cases hxs : seen.contains (eventKey x) <;>
          simp_all [beq_iff_eq]

/-- Without any keys seen yet, the dedup filter is first-occurrence
deduplication by the string key. -/
theorem dedupEvents_eq_keySpec (l : List StormEvent) :
    dedupEvents l = dedupKeySpec l := by
  rw [dedupEvents, dedupAux_eq]
  congr 1
  rw [List.filter_eq_self.mpr]
  intro x _
  simp

/-- On events of the pipeline's shape the string key and the
(formatted date, wind speed) pair induce the same deduplication. -/
theorem dedupKeySpec_eq_pair :
    ∀ (n : ℕ) (l : List StormEvent), l.length ≤ n →
      (∀ e ∈ l, ('-' ∉ formatDate e.date) ∧ 0 ≤ e.windSpeedMph) →
      dedupKeySpec l = dedupByPairSpec l := by
  intro n
  induction n with
  | zero =>
    intro l hl _
    have : l = [] := List.length_eq_zero.mp (by omega)
    subst this
    simp [dedupKeySpec, dedupByPairSpec]
  | succ n ih =>
    intro l hl hgood
    cases l with
    | nil => simp [dedupKeySpec, dedupByPairSpec]
    | cons e rest =>
      rw [dedupKeySpec_cons, dedupByPairSpec_cons]
      have hfeq : rest.filter (fun x => eventKey x != eventKey e) =
          rest.filter (fun x => !(formatDate x.date == formatDate e.date &&
            x.windSpeedMph == e.windSpeedMph)) := by
        apply List.filter_congr
        intro x hx
        have hxg := hgood x (List.mem_cons_of_mem _ hx)
        have heg := hgood e (List.mem_cons_self _ _)
        have hiff := eventKey_eq_iff hxg.1 heg.1 hxg.2 heg.2
        cases hd : (formatDate x.date == formatDate e.date) <;>
          cases hs : (x.windSpeedMph == e.windSpeedMph) <;>
            simp_all [beq_iff_eq, bne_iff_ne]
      rw [hfeq]
      congr 1
      apply ih
      · have hle := List.length_filter_le
          (fun x => !(formatDate x.date == formatDate e.date &&
            x.windSpeedMph == e.windSpeedMph)) rest
        simp only [List.length_cons] at hl
        omega
      · intro x hx
        exact hgood x (List.mem_cons_of_mem _ (List.mem_of_mem_filter hx))

/-- C6: on the event lists the pipeline feeds it (formatted dates free
of a dash character, non-negative rounded speeds), deduplication
collapses events by the (formatted `MM/DD/YYYY` date, rounded wind
speed) pair: among all events sharing that pair exactly the first
occurrence in the current order is kept, regardless of event type,
coordinates or source row, and any two events differing in formatted
date or wind speed are both kept — i.e. the `seen`-set filter computes
exactly the first-occurrence-per-pair reference function.  Moreover two
events share a dedup key exactly when they share the pair. -/
theorem dedup_by_date_speed_pair :
    ∀ l : List StormEvent,
      (∀ e ∈ l, ('-' ∉ formatDate e.date) ∧ 0 ≤ e.windSpeedMph) →
      dedupEvents l = dedupByPairSpec l ∧
      (∀ e1 ∈ l, ∀ e2 ∈ l, (eventKey e1 = eventKey e2 ↔
        (formatDate e1.date = formatDate e2.date ∧
         e1.windSpeedMph = e2.windSpeedMph))) := by
  intro l hgood
  refine ⟨?_, ?_⟩
  · rw [dedupEvents_eq_keySpec]
    exact dedupKeySpec_eq_pair l.length l le_rfl hgood
  · intro e1 h1 e2 h2
    exact eventKey_eq_iff (hgood e1 h1).1 (hgood e2 h2).1 (hgood e1 h1).2 (hgood e2 h2).2

/-- Concrete events witnessing the dedup theorem: two share the
(date, speed) pair with different event types, a third differs in
speed. -/
def evDup1 : StormEvent :=
  { date := dateUTC 2020 0 15, windSpeedMph := 60, eventType := "High Wind".data,
    lat := some 40, lon := some (-73), distanceMiles := none }

def evDup2 : StormEvent :=
  { date := dateUTC 2020 0 15, windSpeedMph := 60, eventType := "Strong Wind".data,
    lat := none, lon := none, distanceMiles := none }

def evDup3 : StormEvent :=
  { date := dateUTC 2020 0 15, windSpeedMph := 70, eventType := "High Wind".data,
    lat := none, lon := none, distanceMiles := none }

/-- Witness for `dedup_by_date_speed_pair` on a concrete list. -/
theorem dedup_by_date_speed_pair_witness :
    dedupEvents [evDup1, evDup2, evDup3] = dedupByPairSpec [evDup1, evDup2, evDup3] ∧
    (∀ e1 ∈ [evDup1, evDup2, evDup3], ∀ e2 ∈ [evDup1, evDup2, evDup3],
      (eventKey e1 = eventKey e2 ↔
        (formatDate e1.date = formatDate e2.date ∧
         e1.windSpeedMph = e2.windSpeedMph))) :=
  dedup_by_date_speed_pair [evDup1, evDup2, evDup3] (by decide)

/-! ## The radius stage: characterization, truthiness pitfalls -/

/-- When both coordinates are truthy, the map step stores the haversine
distance on the event. -/
theorem updDist_truthy_eq (geo : GeoTarget) (e : StormEvent)
    (h1 : jsTruthyQ e.lat = true) (h2 : jsTruthyQ e.lon = true) :
    updDist geo e = { e with distanceMiles := some (eventDistance geo e) } := by
  rw [updDist, if_pos (by rw [h1, h2]; rfl)]

/-- When a coordinate is missing or zero (JS-falsy), the map step leaves
the event untouched. -/
theorem updDist_not_truthy_eq (geo : GeoTarget) (e : StormEvent)
    (h : ¬(jsTruthyQ e.lat = true ∧ jsTruthyQ e.lon = true)) :
    updDist geo e = e := by
  rw [updDist, if_neg]
  intro hc
  exact h (by constructor <;> [exact (Bool.and_eq_true _ _).mp hc |>.1;
    exact (Bool.and_eq_true _ _).mp hc |>.2])

/-- The filter step keeps a distance-annotated event exactly when both
coordinates are truthy and the stored distance is within the radius. -/
theorem radiusKeep_updDist (geo : GeoTarget) (radiusMiles : ℚ) (e : StormEvent) :
    radiusKeep radiusMiles (updDist geo e) = true ↔
      (jsTruthyQ e.lat = true ∧ jsTruthyQ e.lon = true ∧
        eventDistance geo e ≤ (radiusMiles : ℝ)) := by
  by_cases ht : jsTruthyQ e.lat = true ∧ jsTruthyQ e.lon = true
  · rw [updDist_truthy_eq geo e ht.1 ht.2, radiusKeep]
    rw [if_pos (by rw [show ({ e with distanceMiles := some (eventDistance geo e) } : StormEvent).lat = e.lat from rfl,
      show ({ e with distanceMiles := some (eventDistance geo e) } : StormEvent).lon = e.lon from rfl,
      ht.1, ht.2]; rfl)]
    simp only [show ({ e with distanceMiles := some (eventDistance geo e) } : StormEvent).distanceMiles
      = some (eventDistance geo e) from rfl]
    rw [decide_eq_true_eq]
    exact ⟨fun h => ⟨ht.1, ht.2, h⟩, fun h => h.2.2⟩
  · rw [updDist_not_truthy_eq geo e ht, radiusKeep, if_neg]
    · simp only [Bool.false_eq_true, false_iff]
      intro hc
      exact ht ⟨hc.1, hc.2.1⟩
    · intro hc
      exact ht (by constructor <;> [exact (Bool.and_eq_true _ _).mp hc |>.1;
        exact (Bool.and_eq_true _ _).mp hc |>.2])

/-- Membership in the radius stage for a positive radius. -/
theorem mem_radiusFilterStage_pos {geo : GeoTarget} {radiusMiles : ℚ}
    {l : List StormEvent} (hr : 0 < radiusMiles) (e' : StormEvent) :
    e' ∈ radiusFilterStage geo radiusMiles l ↔
      ∃ e ∈ l, e' = updDist geo e ∧ jsTruthyQ e.lat = true ∧
        jsTruthyQ e.lon = true ∧ eventDistance geo e ≤ (radiusMiles : ℝ) := by
  rw [radiusFilterStage, if_pos hr]
  rw [List.mem_filter, List.mem_map]
  constructor
  · rintro ⟨⟨e, he, rfl⟩, hp⟩
    obtain ⟨h1, h2, h3⟩ := (radiusKeep_updDist geo radiusMiles e).mp hp
    exact ⟨e, he, rfl, h1, h2, h3⟩
  · rintro ⟨e, he, rfl, h1, h2, h3⟩
    exact ⟨⟨e, he, rfl⟩, (radiusKeep_updDist geo radiusMiles e).mpr ⟨h1, h2, h3⟩⟩

/-- C3 (amended): whenever a radius `r > 0` is requested, an accumulated
event appears in the radius-filtered list (as its distance-annotated
copy) exactly when both its coordinates are present *and JS-truthy*
(non-zero; the source's `if (e.lat && e.lon)` / `if (!e.lat || !e.lon)`
treat a coordinate of exactly `0` as missing) and its haversine distance
from the target is at most `r`; whenever the radius is zero, the stage is
the identity: no distance is computed and every event passes through
regardless of coordinate availability. -/
theorem radiusFilter_characterization :
    ∀ (geo : GeoTarget) (radiusMiles : ℚ) (l : List StormEvent),
      (0 < radiusMiles →
        ∀ e', (e' ∈ radiusFilterStage geo radiusMiles l ↔
          ∃ e ∈ l, e' = updDist geo e ∧ jsTruthyQ e.lat = true ∧
            jsTruthyQ e.lon = true ∧ eventDistance geo e ≤ (radiusMiles : ℝ))) ∧
      radiusFilterStage geo 0 l = l := by
  intro geo radiusMiles l
  refine ⟨fun hr e' => mem_radiusFilterStage_pos hr e', ?_⟩
  rw [radiusFilterStage, if_neg (by norm_num)]

/-- A target that geocodes to latitude exactly 0 (on the equator). -/
def geoZ : GeoTarget :=
  { lat := 0, lon := -75, county := some "Suffolk".data, state := some "New York".data }

/-- An event whose coordinates are present but whose latitude is the
JS-falsy number 0 — located exactly at the target. -/
def evZ : StormEvent :=
  { date := dateUTC 2020 0 15, windSpeedMph := 60, eventType := "High Wind".data,
    lat := some 0, lon := some (-75), distanceMiles := none }

/-- Counterexample to C3 as stated: `evZ` has both coordinates present
and haversine distance 0 ≤ 5 from the target, yet the radius stage drops
it (latitude `0` is JS-falsy). -/
theorem radiusFilter_zero_coordinate_cex :
    radiusFilterStage geoZ 5 [evZ] = [] ∧
    evZ.lat.isSome = true ∧ evZ.lon.isSome = true ∧
    eventDistance geoZ evZ ≤ ((5 : ℚ) : ℝ) := by
  refine ⟨rfl, rfl, rfl, ?_⟩
  have h0 : eventDistance geoZ evZ =
      haversineDistance ((0 : ℚ) : ℝ) ((-75 : ℚ) : ℝ) ((0 : ℚ) : ℝ) ((-75 : ℚ) : ℝ) := rfl
  rw [h0, haversineDistance_self]
  norm_num

/-- A target and an event located exactly at the target's (non-zero)
coordinates. -/
def geoAt : GeoTarget :=
  { lat := 40, lon := -75, county := some "Suffolk".data, state := some "New York".data }

def evAt : StormEvent :=
  { date := dateUTC 2020 0 15, windSpeedMph := 60, eventType := "High Wind".data,
    lat := some 40, lon := some (-75), distanceMiles := none }

/-- The event at the target's coordinates is at haversine distance 0. -/
theorem evAt_dist : eventDistance geoAt evAt = 0 := by
  have h0 : eventDistance geoAt evAt =
      haversineDistance ((40 : ℚ) : ℝ) ((-75 : ℚ) : ℝ) ((40 : ℚ) : ℝ) ((-75 : ℚ) : ℝ) := rfl
  rw [h0, haversineDistance_self]

/-- Witness for `radiusFilter_characterization`: at radius 5, the event
exactly at the (truthy) target coordinates is retained. -/
theorem radiusFilter_characterization_witness :
    updDist geoAt evAt ∈ radiusFilterStage geoAt 5 [evAt] :=
  ((radiusFilter_characterization geoAt 5 [evAt]).1 (by norm_num) (updDist geoAt evAt)).mpr
    ⟨evAt, List.mem_singleton_self evAt, rfl, by decide, by decide,
      by rw [evAt_dist]; norm_num⟩

/-! ## Distance reporting in the shaped output -/

/-- The sorted-list permutation, for transporting membership back to the
accumulation order. -/
theorem sortEvents_perm (l : List StormEvent) : List.Perm (sortEvents l) l :=
  List.perm_insertionSort _ l

/-- C2 (amended): whenever a radius `r > 0` is requested, every entry of
the shaped output comes from an accumulated event with truthy (non-zero)
coordinates whose haversine distance (Earth radius 3958.8 miles) from
the target is at most `r`, and its reported `distanceMiles` is that
distance rounded to one decimal — *except* that a distance of exactly 0
is JS-falsy in the `e.distanceMiles ? … : null` ternary and is reported
as `null`.  In particular an event located exactly at the target's
(truthy) coordinates is retained by the radius filter, with stored
distance 0 — so its shaped `distanceMiles` is `null`, not `0`. -/
theorem postProcess_distance_shape :
    ∀ (geo : GeoTarget) (radiusMiles : ℚ) (l : List StormEvent),
      0 < radiusMiles →
      (∀ out ∈ postProcess geo radiusMiles l,
        ∃ e ∈ l, jsTruthyQ e.lat = true ∧ jsTruthyQ e.lon = true ∧
          eventDistance geo e ≤ (radiusMiles : ℝ) ∧
          out.distanceMiles = (if eventDistance geo e = 0 then none
            else some ((jroundR (eventDistance geo e * 10) : ℝ) / 10)) ∧
          out.date = formatDate e.date ∧ out.windSpeedMph = e.windSpeedMph ∧
          out.eventType = e.eventType) ∧
      (∀ e ∈ l, e.lat = some geo.lat → e.lon = some geo.lon →
        jsTruthyQ e.lat = true → jsTruthyQ e.lon = true →
        updDist geo e ∈ radiusFilterStage geo radiusMiles (sortEvents l) ∧
        (updDist geo e).distanceMiles = some 0) := by
  intro geo radiusMiles l hr
  constructor
  · intro out hout
    rw [postProcess] at hout
    obtain ⟨ev', hev', rfl⟩ := List.mem_map.mp hout
    have hstage : ev' ∈ radiusFilterStage geo radiusMiles (sortEvents l) :=
      (dedupEvents_sublist _).subset hev'
    obtain ⟨e, he, rfl, h1, h2, h3⟩ :=
      (mem_radiusFilterStage_pos hr ev').mp hstage
    refine ⟨e, (sortEvents_perm l).subset he, h1, h2, h3, ?_, ?_, ?_, ?_⟩
    · rw [shapeResult]
      rw [show (updDist geo e).distanceMiles = some (eventDistance geo e) from by
        rw [updDist_truthy_eq geo e h1 h2]]
    · rw [shapeResult]
      rw [show (updDist geo e).date = e.date from (updDist_fields geo e).1]
    · exact (updDist_fields geo e).2.1
    · exact (updDist_fields geo e).2.2.1
  · intro e he hlat hlon h1 h2
    have hdist : eventDistance geo e = 0 := by
      rw [eventDistance, hlat, hlon, Option.getD_some, Option.getD_some]
      exact haversineDistance_self _ _
    constructor
    · refine (mem_radiusFilterStage_pos hr (updDist geo e)).mpr
        ⟨e, (sortEvents_perm l).mem_iff.mpr he, rfl, h1, h2, ?_⟩
      rw [hdist]
      exact_mod_cast hr.le
    · rw [updDist_truthy_eq geo e h1 h2, hdist]

/-- The at-target event passes the radius filter at radius 5. -/
theorem radiusKeep_evAt : radiusKeep 5 (updDist geoAt evAt) = true :=
  (radiusKeep_updDist geoAt 5 evAt).mpr
    ⟨by decide, by decide, by rw [evAt_dist]; norm_num⟩

theorem stage_evAt : radiusFilterStage geoAt 5 [evAt] = [updDist geoAt evAt] := by
  rw [radiusFilterStage, if_pos (by norm_num : (0 : ℚ) < 5)]
  simp [List.filter_cons, radiusKeep_evAt]

/-- Full pipeline run on the single at-target event, radius 5. -/
theorem run_evAt : postProcess geoAt 5 [evAt] = [shapeResult (updDist geoAt evAt)] := by
  rw [postProcess, show sortEvents [evAt] = [evAt] from rfl, stage_evAt]
  rw [show dedupEvents [updDist geoAt evAt] = [updDist geoAt evAt] from by
    rw [dedupEvents, dedupAux]; simp [dedupAux]]
  rfl

/-- The retained at-target event is reported with a `null` distance: its
stored distance 0 is JS-falsy in the shaping ternary. -/
theorem shape_evAt_dist : (shapeResult (updDist geoAt evAt)).distanceMiles = none := by
  rw [shapeResult]
  rw [show (updDist geoAt evAt).distanceMiles = some (eventDistance geoAt evAt) from by
    rw [updDist_truthy_eq geoAt evAt (by decide) (by decide)]]
  rw [evAt_dist]
  simp

/-- Counterexample to C2 as stated: with radius 5 requested, the event
located exactly at the target coordinates is retained, but its reported
`distanceMiles` is `null`, not a populated `0`. -/
theorem postProcess_distance_null_cex :
    (postProcess geoAt 5 [evAt]).map (fun o => o.distanceMiles) = [none] ∧
    evAt.lat = some geoAt.lat ∧ evAt.lon = some geoAt.lon ∧
    ¬ (∀ out ∈ postProcess geoAt 5 [evAt], out.distanceMiles ≠ none) := by
  refine ⟨by rw [run_evAt]; simp [shape_evAt_dist], rfl, rfl, ?_⟩
  intro h
  exact h (shapeResult (updDist geoAt evAt))
    (by rw [run_evAt]; exact List.mem_singleton_self _) shape_evAt_dist

/-- Witness for `postProcess_distance_shape`: the at-target event is
retained by the radius filter with stored distance exactly 0. -/
theorem postProcess_distance_shape_witness :
    updDist geoAt evAt ∈ radiusFilterStage geoAt 5 (sortEvents [evAt]) ∧
    (updDist geoAt evAt).distanceMiles = some 0 :=
  (postProcess_distance_shape geoAt 5 [evAt] (by norm_num)).2 evAt
    (List.mem_singleton_self evAt) rfl rfl (by decide) (by decide)

/-! ## Per-row postconditions and the window/type/speed invariant -/

/-- A retained wind speed is the rounding of a positive magnitude, hence
non-negative. -/
theorem computeWindSpeed_nonneg {a b : Str} {s : ℤ}
    (h : computeWindSpeed a b = some s) : 0 ≤ s := by
  rw [computeWindSpeed] at h
  split at h
  · exact absurd h (by simp)
  · next m heq =>
    split at h
    · exact absurd h (by simp)
    · next hm =>
      have hs : s = jroundQ m := by
        injection h with h2
        exact h2.symm
      rw [hs, jroundQ_eq_floor]
      apply Int.floor_nonneg.mpr
      have hpos : (0 : ℚ) < m := lt_of_not_ge hm
      linarith

/-- Postconditions of a retained row: begin date at or after the cutoff,
event type in the allow-list, non-negative rounded wind speed. -/
theorem processRecord_props {geo : GeoTarget} {cutoff : ℤ} {record : RawRecord}
    {ev : StormEvent} (h : processRecord geo cutoff record = some ev) :
    cutoff ≤ ev.date ∧ ev.eventType ∈ WIND_EVENT_TYPES ∧ 0 ≤ ev.windSpeedMph := by
  simp only [processRecord] at h
  split at h
  · exact absurd h (by simp)
  · next htype =>
    split at h
    · exact absurd h (by simp)
    · split at h
      · exact absurd h (by simp)
      · split at h
        · exact absurd h (by simp)
        · next beginDate hdate =>
          split at h
          · exact absurd h (by simp)
          · next hcut =>
            split at h
            · exact absurd h (by simp)
            · next speed hspeed =>
              injection h with h2
              subst h2
              refine ⟨le_of_not_lt hcut, ?_, computeWindSpeed_nonneg hspeed⟩
              have hc : WIND_EVENT_TYPES.contains (jsTrim record.EVENT_TYPE) = true := by
                by_contra hc
                exact htype (by simpa using hc)
              simpa using hc

/-- Through the whole post-processing pipeline, each output entry's
date string, speed and type come from some accumulated event. -/
theorem mem_postProcess_core {geo : GeoTarget} {radiusMiles : ℚ}
    {l : List StormEvent} {out : ResultEntry}
    (hout : out ∈ postProcess geo radiusMiles l) :
    ∃ e ∈ l, out.date = formatDate e.date ∧ out.windSpeedMph = e.windSpeedMph ∧
      out.eventType = e.eventType := by
  rw [postProcess] at hout
  obtain ⟨ev', hev', rfl⟩ := List.mem_map.mp hout
  have hstage : ev' ∈ radiusFilterStage geo radiusMiles (sortEvents l) :=
    (dedupEvents_sublist _).subset hev'
  by_cases hr : 0 < radiusMiles
  · obtain ⟨e, he, rfl, _, _, _⟩ := (mem_radiusFilterStage_pos hr ev').mp hstage
    refine ⟨e, (sortEvents_perm l).subset he, ?_, ?_, ?_⟩
    · rw [shapeResult, show (updDist geo e).date = e.date from (updDist_fields geo e).1]
    · exact (updDist_fields geo e).2.1
    · exact (updDist_fields geo e).2.2.1
  · rw [radiusFilterStage, if_neg hr] at hstage
    exact ⟨ev', (sortEvents_perm l).subset hstage, rfl, rfl, rfl⟩

/-- C1 (amended): for every request, every entry of the final results
list has its begin date at or after the cutoff (request time minus 10
years), its event type in the fixed eight-element allow-list, and a
*non-negative* `windSpeedMph` (the magnitude is checked `> 0` before
rounding, so a magnitude below 0.5 rounds to a reported speed of 0). -/
theorem finalResults_window_type_speed :
    ∀ (geo : GeoTarget) (radiusMiles : ℚ) (cutoff : ℤ) (records : List RawRecord),
      ∀ out ∈ finalResults geo radiusMiles cutoff records,
        0 ≤ out.windSpeedMph ∧ out.eventType ∈ WIND_EVENT_TYPES ∧
        ∃ t : ℤ, cutoff ≤ t ∧ out.date = formatDate t := by
  intro geo radiusMiles cutoff records out hout
  rw [finalResults] at hout
  obtain ⟨e, he, hdate, hspeed, htype⟩ := mem_postProcess_core hout
  obtain ⟨rec, _, hpe⟩ := List.mem_filterMap.mp he
  obtain ⟨h1, h2, h3⟩ := processRecord_props hpe
  exact ⟨hspeed ▸ h3, htype ▸ h2, e.date, h1, hdate⟩

/-- A row for Suffolk County, New York, with a High Wind event of
magnitude `0.3` mph (no gust flag), within the lookback window. -/
def recC : RawRecord :=
  { EVENT_TYPE := "High Wind".data, STATE := "New York".data, CZ_NAME := "Suffolk".data,
    CZ_TYPE := "C".data, BEGIN_DATE_TIME := "01/15/2020 00:00:00".data, BEGIN_DATE := [],
    MAGNITUDE := "0.3".data, MAGNITUDE_TYPE := [], BEGIN_LAT := "40.8".data,
    BEGIN_LON := "-72.9".data }

/-- The response entry the pipeline produces for `recC`. -/
def outC : ResultEntry :=
  { date := "01/15/2020".data, windSpeedMph := 0, eventType := "High Wind".data,
    distanceMiles := none }

/-- Concrete county-wide run: the `0.3`-mph row is retained with a
rounded speed of exactly 0. -/
theorem run_recC : finalResults geoAt 0 (dateUTC 2016 0 1) [recC] = [outC] := rfl

/-- Counterexample to C1 as stated: a request with a known state and
county whose final results contain an event with `windSpeedMph = 0`,
not strictly positive (magnitude `0.3` passes the `> 0` check but
`Math.round(0.3) = 0`). -/
theorem finalResults_speed_zero_cex :
    (finalResults geoAt 0 (dateUTC 2016 0 1) [recC]).map (fun o => o.windSpeedMph) = [0] ∧
    ¬ (∀ out ∈ finalResults geoAt 0 (dateUTC 2016 0 1) [recC],
        0 < out.windSpeedMph) := by
  have h1 : (finalResults geoAt 0 (dateUTC 2016 0 1) [recC]).map
      (fun o => o.windSpeedMph) = [0] := by
    rw [run_recC]; rfl
  refine ⟨h1, fun hall => ?_⟩
  have hpos := hall outC (by rw [run_recC]; exact List.mem_singleton_self _)
  have h0 : outC.windSpeedMph = 0 := rfl
  omega

/-- Witness for `finalResults_window_type_speed` on the concrete run. -/
theorem finalResults_window_type_speed_witness :
    0 ≤ outC.windSpeedMph ∧ outC.eventType ∈ WIND_EVENT_TYPES ∧
    ∃ t : ℤ, dateUTC 2016 0 1 ≤ t ∧ outC.date = formatDate t :=
  finalResults_window_type_speed geoAt 0 (dateUTC 2016 0 1) [recC] outC
    (by rw [run_recC]; exact List.mem_singleton_self _)

/-! ## Two-digit years in `parseNoaaDate` -/

/-- Any civil date with year ≥ 2000, a valid month and a day-of-month
field ≥ 1 lies at or after 2000-01-01 (day 10957), even when the day
overflows the month. -/
theorem daysFromCivil_ge_2000 {Y m d : ℤ} (hY : 2000 ≤ Y) (hm1 : 1 ≤ m)
    (hm2 : m ≤ 12) (hd : 1 ≤ d) : 10957 ≤ daysFromCivil Y m d := by
  have hfacts : ∀ (a : ℤ) (b : ℤ), b ≠ 0 → 0 < b →
      b * a.ediv b + a.emod b = a ∧ 0 ≤ a.emod b ∧ a.emod b < b :=
    fun a b hb hb' => ⟨Int.ediv_add_emod a b, Int.emod_nonneg a hb, Int.emod_lt_of_pos a hb'⟩
  simp only [daysFromCivil]
  by_cases hm : m ≤ 2
  · simp only [hm, if_true]
    set e := (Y - 1).ediv 400 with he
    set r := Y - 1 - e * 400 with hr
    obtain ⟨h1, h2, h3⟩ := hfacts (Y - 1) 400 (by norm_num) (by norm_num)
    obtain ⟨h4, h5, h6⟩ := hfacts r 4 (by norm_num) (by norm_num)
    obtain ⟨h7, h8, h9⟩ := hfacts r 100 (by norm_num) (by norm_num)
    obtain ⟨h10, h11, h12⟩ := hfacts (153 * (m + 9) + 2) 5 (by norm_num) (by norm_num)
    omega
  · simp only [hm, if_false]
    set e := Y.ediv 400 with he
    set r := Y - e * 400 with hr
    obtain ⟨h1, h2, h3⟩ := hfacts Y 400 (by norm_num) (by norm_num)
    obtain ⟨h4, h5, h6⟩ := hfacts r 4 (by norm_num) (by norm_num)
    obtain ⟨h7, h8, h9⟩ := hfacts r 100 (by norm_num) (by norm_num)
    obtain ⟨h10, h11, h12⟩ := hfacts (153 * (m - 3) + 2) 5 (by norm_num) (by norm_num)
    omega

theorem natToStrAux_small {fuel k : ℕ} (hf : 0 < fuel) (hk : k < 10) :
    natToStrAux fuel k = [digitChar k] := by
  cases fuel with
  | zero => omega
  | succ f => rw [natToStrAux, if_pos hk]

/-- Two-digit zero-padded rendering of `0 ≤ n ≤ 99`. -/
theorem pad2_eq {n : ℕ} (h : n ≤ 99) :
    pad2 (n : ℤ) = [digitChar (n / 10), digitChar (n % 10)] := by
  have hnn : intToStr (n : ℤ) = natToStr n := by
    rw [intToStr, if_neg (by omega)]
    norm_num
  by_cases h10 : n < 10
  · rw [pad2, hnn, natToStr, natToStrAux_small (by omega) h10]
    simp only [List.length_singleton]
    rw [if_pos (by omega)]
    have h1 : n / 10 = 0 := by omega
    have h2 : n % 10 = n := by omega
    rw [h1, h2]
    rfl
  · rw [pad2, hnn, natToStr, natToStrAux, if_neg h10,
      natToStrAux_small (by omega) (by omega)]
    rw [if_neg (by simp)]
    rfl

theorem isJsSpace_digitChar {k : ℕ} (h : k < 10) : isJsSpace (digitChar k) = false := by
  interval_cases k <;> decide

theorem digitChar_ne_dash {k : ℕ} (h : k < 10) : digitChar k ≠ '-' := by
  interval_cases k <;> decide

theorem digitChar_ne_slash {k : ℕ} (h : k < 10) : digitChar k ≠ '/' := by
  interval_cases k <;> decide

theorem dropWhile_eq_self_of_all {p : Char → Bool} {l : Str}
    (h : ∀ c ∈ l, p c = false) : l.dropWhile p = l := by
  cases l with
  | nil => rfl
  | cons a l' =>
    rw [List.dropWhile_cons, if_neg]
    rw [h a (List.mem_cons_self a l')]
    simp

/-- `trim` is the identity on strings with no whitespace characters. -/
theorem jsTrim_eq_self {s : Str} (h : ∀ c ∈ s, isJsSpace c = false) : jsTrim s = s := by
  rw [jsTrim, dropWhile_eq_self_of_all h, dropWhile_eq_self_of_all
    (fun c hc => h c (List.mem_reverse.mp hc)), List.reverse_reverse]

theorem digitsVal_two {p q : ℕ} (hp : p < 10) (hq : q < 10) :
    digitsVal [digitChar p, digitChar q] = 10 * p + q := by
  rw [digitsVal]
  simp [List.foldl, digitVal_digitChar hp, digitVal_digitChar hq]

theorem isJsSpace_of_digit {c : Char} (h : isDigitChar c = true) : isJsSpace c = false := by
  cases hs : isJsSpace c
  · rfl
  · exfalso
    rw [isJsSpace] at hs
    rcases of_decide_eq_true hs with h1 | h1 | h1 | h1 | h1 | h1 <;>
      (subst h1; exact absurd h (by decide))

theorem isJsSpace_of_letter {c : Char} (h : isAsciiLetter c = true) :
    isJsSpace c = false := by
  cases hs : isJsSpace c
  · rfl
  · exfalso
    rw [isJsSpace] at hs
    rcases of_decide_eq_true hs with h1 | h1 | h1 | h1 | h1 | h1 <;>
      (subst h1; exact absurd h (by decide))

theorem ne_slash_of_digit {c : Char} (h : isDigitChar c = true) : c ≠ '/' :=
  fun hc => absurd (hc ▸ h) (by decide)

/-- Parsing a canonical `DD-MON-YY` string (2-digit day and year
renderings, three-letter month): the regex takes the dash branch and the
two-digit year gains 2000. -/
theorem parseNoaaDate_dash9 {a b c1 c2 m1 m2 m3 : Char} {midx : ℤ}
    (ha : isDigitChar a = true) (hb : isDigitChar b = true)
    (hc1 : isDigitChar c1 = true) (hc2 : isDigitChar c2 = true)
    (hL1 : isAsciiLetter m1 = true) (hL2 : isAsciiLetter m2 = true)
    (hL3 : isAsciiLetter m3 = true)
    (hm : monthIndex (jsToUpper [m1, m2, m3]) = some midx)
    (hylt : digitsVal [c1, c2] < 100) :
    parseNoaaDate [a, b, '-', m1, m2, m3, '-', c1, c2] =
      some (dateUTC ((digitsVal [c1, c2] : ℤ) + 2000) midx
        ((10 * digitVal a + digitVal b : ℕ) : ℤ)) := by
  have htrim : ∀ c ∈ ([a, b, '-', m1, m2, m3, '-', c1, c2] : Str),
      isJsSpace c = false := by
    intro c hc
    simp only [List.mem_cons, List.not_mem_nil, or_false] at hc
    rcases hc with rfl | rfl | rfl | rfl | rfl | rfl | rfl | rfl | rfl
    · exact isJsSpace_of_digit ha
    · exact isJsSpace_of_digit hb
    · decide
    · exact isJsSpace_of_letter hL1
    · exact isJsSpace_of_letter hL2
    · exact isJsSpace_of_letter hL3
    · decide
    · exact isJsSpace_of_digit hc1
    · exact isJsSpace_of_digit hc2
  have hslash : matchSepNum '/' [a, b, '-', m1, m2, m3, '-', c1, c2] = none := by
    simp only [matchSepNum]
    rw [if_neg (fun hcon => absurd hcon.2.2 (by decide)),
      if_neg (fun hcon => ne_slash_of_digit hb hcon.2)]
  have hday : matchSepNum '-' [a, b, '-', m1, m2, m3, '-', c1, c2] =
      some (10 * digitVal a + digitVal b, [m1, m2, m3, '-', c1, c2]) := by
    simp only [matchSepNum]
    rw [if_pos (by simp [ha, hb])]
  have hmon : matchMon [m1, m2, m3, '-', c1, c2] = some ([m1, m2, m3], [c1, c2]) := by
    simp only [matchMon]
    rw [if_pos ⟨hL1, hL2, hL3⟩]
  have hyear : matchYear24 [c1, c2] = some (digitsVal [c1, c2]) := by
    rw [matchYear24]
    have ht : (([c1, c2] : Str).take 4).takeWhile isDigitChar = [c1, c2] := by
      simp [List.takeWhile_cons, hc1, hc2]
    rw [ht, if_pos (by simp)]
  simp only [parseNoaaDate]
  rw [if_neg (by simp), jsTrim_eq_self htrim, hslash]
  show parseNoaaDate.parseNoaaDateDash _ = _
  rw [parseNoaaDate.parseNoaaDateDash, hday]
  simp only [hmon, hyear, hm]
  rw [if_pos (by exact_mod_cast hylt)]

set_option maxHeartbeats 3200000 in
/-- Inverting the `months` table: a hit determines the (uppercase)
month string and an index in `[0, 11]`. -/
theorem monthIndex_cases {mon : Str} {midx : ℤ} (h : monthIndex mon = some midx) :
    (∀ c ∈ mon, isAsciiLetter c = true) ∧
    monthIndex (jsToUpper mon) = some midx ∧ 0 ≤ midx ∧ midx ≤ 11 ∧
    ∃ m1 m2 m3, mon = [m1, m2, m3] := by
  rw [monthIndex] at h
  split_ifs at h
  all_goals
    subst_vars
    injection h with h2
    subst h2
    exact ⟨by decide, by decide, by decide, by decide, _, _, _, rfl⟩

/-- C10 (amended): a begin-date string in `DD-MON-YY` format with a
two-digit year field is interpreted with year `2000 + yy` — e.g.
`15-JAN-99` parses to January 15, 2099 — and, because the day-of-month
field is at least 1, the parsed timestamp is at or after Jan 1, 2000
(UTC), hence never a twentieth-century (19YY) date.  (A day field of
`00` underflows `Date.UTC` to December 31 of the previous year, so
`00-JAN-00` does parse to a 1999 date; the day bound is what rules this
out.) -/
theorem parseNoaaDate_two_digit_year :
    ∀ (d y : ℕ) (mon : Str) (midx : ℤ),
      1 ≤ d → d ≤ 99 → y ≤ 99 → monthIndex mon = some midx →
      parseNoaaDate (pad2 (d : ℤ) ++ ['-'] ++ mon ++ ['-'] ++ pad2 (y : ℤ)) =
        some (dateUTC ((y : ℤ) + 2000) midx (d : ℤ)) ∧
      msPerDay * 10957 ≤ dateUTC ((y : ℤ) + 2000) midx (d : ℤ) := by
  intro d y mon midx hd1 hd2 hy hmon
  obtain ⟨hms, hup, hb1, hb2, m1, m2, m3, rfl⟩ := monthIndex_cases hmon
  have hL1 : isAsciiLetter m1 = true := hms m1 (by simp)
  have hL2 : isAsciiLetter m2 = true := hms m2 (by simp)
  have hL3 : isAsciiLetter m3 = true := hms m3 (by simp)
  have hs : pad2 (d : ℤ) ++ ['-'] ++ [m1, m2, m3] ++ ['-'] ++ pad2 (y : ℤ) =
      [digitChar (d / 10), digitChar (d % 10), '-', m1, m2, m3, '-',
       digitChar (y / 10), digitChar (y % 10)] := by
    rw [pad2_eq hd2, pad2_eq hy]
    rfl
  have hdv : digitsVal [digitChar (y / 10), digitChar (y % 10)] = y := by
    rw [digitsVal_two (by omega) (by omega)]
    omega
  have hparse := @parseNoaaDate_dash9 (digitChar (d / 10)) (digitChar (d % 10))
    (digitChar (y / 10)) (digitChar (y % 10)) m1 m2 m3 midx
    (isDigitChar_digitChar (by omega)) (isDigitChar_digitChar (by omega))
    (isDigitChar_digitChar (by omega)) (isDigitChar_digitChar (by omega))
    hL1 hL2 hL3 hup (by omega)
  constructor
  · rw [hs, hparse, hdv]
    have hdval : 10 * digitVal (digitChar (d / 10)) + digitVal (digitChar (d % 10)) = d := by
      rw [digitVal_digitChar (by omega), digitVal_digitChar (by omega)]
      omega
    rw [hdval]
  · rw [dateUTC, show jsYearMap ((y : ℤ) + 2000) = (y : ℤ) + 2000 from by
      rw [jsYearMap, if_neg (by omega)]]
    have hbound := @daysFromCivil_ge_2000 ((y : ℤ) + 2000) (midx + 1) ((d : ℤ))
      (by omega) (by omega) (by omega) (by omega)
    exact mul_le_mul_of_nonneg_left hbound (by rw [msPerDay]; norm_num)

/-- Counterexample to C10 as stated: `00-JAN-00` has a two-digit year
field, is interpreted as year 2000, but the zero day field underflows
`Date.UTC(2000, 0, 0)` to December 31, 1999 — a 19YY date. -/
theorem parseNoaaDate_underflow_cex :
    parseNoaaDate "00-JAN-00".data = some (dateUTC 2000 0 0) ∧
    getUTCFullYear (dateUTC 2000 0 0) = 1999 := by decide

/-- Witness for `parseNoaaDate_two_digit_year` at `15-JAN-99`. -/
theorem parseNoaaDate_two_digit_year_witness :
    parseNoaaDate (pad2 ((15 : ℕ) : ℤ) ++ ['-'] ++ "JAN".data ++ ['-'] ++
        pad2 ((99 : ℕ) : ℤ)) =
      some (dateUTC (((99 : ℕ) : ℤ) + 2000) 0 ((15 : ℕ) : ℤ)) ∧
    msPerDay * 10957 ≤ dateUTC (((99 : ℕ) : ℤ) + 2000) 0 ((15 : ℕ) : ℤ) :=
  parseNoaaDate_two_digit_year 15 99 "JAN".data 0 (by norm_num) (by norm_num)
    (by norm_num) (by decide)

example : pad2 ((15 : ℕ) : ℤ) ++ ['-'] ++ "JAN".data ++ ['-'] ++ pad2 ((99 : ℕ) : ℤ) =
    "15-JAN-99".data := by decide
example : getUTCFullYear (dateUTC (((99 : ℕ) : ℤ) + 2000) 0 15) = 2099 := by decide
